import Mathlib

/-!
Verification development for the emgo media-library scripts.

The JavaScript sources are embedded shallowly: every pure helper becomes a
Lean function on strings (represented as lists of characters where induction
is needed), and the effectful pipeline steps (metadata resolution, symlink
materialization, batch processing) become explicit state-passing functions.
Network providers and filesystem failures are supplied as explicit
environments, network traffic is counted, and the persisted cache files are
modelled as a separate component of the state so that flush timing is
observable.  Regular-expression matching from the sources is embedded as
character-level scanners that reproduce the JS engine's leftmost-match,
first-alternative, greedy-with-backtracking behaviour for the concrete
patterns appearing in the code.
-/

namespace Emgo

/-- ASCII lowercase of one character, as JS toLowerCase acts on ASCII. -/
def lowC (c : Char) : Char :=
  if 'A' ≤ c ∧ c ≤ 'Z' then Char.ofNat (c.toNat + 32) else c

/-- ASCII uppercase of one character, as JS toUpperCase acts on ASCII. -/
def upC (c : Char) : Char :=
  if 'a' ≤ c ∧ c ≤ 'z' then Char.ofNat (c.toNat - 32) else c

def lowStr (s : String) : String := String.mk (s.toList.map lowC)

def upStr (s : String) : String := String.mk (s.toList.map upC)

def isDigitC (c : Char) : Bool := '0' ≤ c ∧ c ≤ '9'

/-- JS word character class, backslash-w. -/
def isWordC (c : Char) : Bool := c.isAlpha ∨ isDigitC c ∨ c = '_'

/-- JS whitespace class, backslash-s, restricted to the ASCII cases. -/
def isSpaceC (c : Char) : Bool := c = ' ' ∨ c = '\t' ∨ c = '\n' ∨ c = '\r'

def digitsVal (cs : List Char) : Nat :=
  cs.foldl (fun a c => a * 10 + (c.toNat - 48)) 0

/-- JS parseInt: value of the leading decimal digits, none (NaN) if there are none. -/
def jsParseInt (cs : List Char) : Option Nat :=
  let ds := cs.takeWhile (fun c => isDigitC c)
  if ds.isEmpty then none else some (digitsVal ds)

/-- JS String(n) where n may be NaN. -/
def jsNumStr (n : Option Nat) : String :=
  match n with
  | some v => toString v
  | none => "NaN"

/-- String.prototype.padStart(n, zero). -/
def padZero (n : Nat) (s : String) : String :=
  if n ≤ s.toList.length then s
  else String.mk (List.replicate (n - s.toList.length) '0') ++ s

/-- JS truthiness-based or on strings: a or-else b. -/
def jsOr (a b : String) : String := if a = "" then b else a

/-- JS String.prototype.trim on the ASCII whitespace of this model. -/
def jsTrimL (cs : List Char) : List Char :=
  ((cs.dropWhile (fun c => isSpaceC c)).reverse.dropWhile (fun c => isSpaceC c)).reverse

def jsTrim (s : String) : String := String.mk (jsTrimL s.toList)

/-- Association-list lookup modelling JS object property access. -/
def alookup {α : Type} (k : String) : List (String × α) → Option α
  | [] => none
  | (a, b) :: t => if a = k then some b else alookup k t

def hasPref : List Char → List Char → Bool
  | [], _ => true
  | _ :: _, [] => false
  | p :: ps, c :: cs => p = c ∧ hasPref ps cs

/-- JS s.startsWith(pre). -/
def strStarts (s pre : String) : Bool := hasPref pre.toList s.toList

/-- JS s.split(dash)[0]. -/
def splitDashHead (s : String) : String :=
  String.mk (s.toList.takeWhile (fun c => c ≠ '-'))

/-! ## Colon sanitization (emgo-movies.js lines 154 and 189) -/

/-- replace(/:/g, space-dash), the creation-time colon rewrite. -/
def colonRep : List Char → List Char
  | [] => []
  | c :: cs => if c = ':' then ' ' :: '-' :: colonRep cs else c :: colonRep cs

/-- replace with slashes mapped to dashes. -/
def slashRep : List Char → List Char
  | [] => []
  | c :: cs => (if c = '/' then '-' else c) :: slashRep cs

/-- replace(/: /g, space-dash-space), first pass of the fix-names rewrite. -/
def colonSpaceRep : List Char → List Char
  | ':' :: ' ' :: cs => ' ' :: '-' :: ' ' :: colonSpaceRep cs
  | c :: cs => c :: colonSpaceRep cs
  | [] => []

/-- Creation-time title sanitization: colons then slashes (line 154). -/
def movieSanitizeTitle (s : String) : String :=
  String.mk (slashRep (colonRep s.toList))

/-- The fix-names rewrite of a directory entry name (line 189). -/
def fixNamesRewrite (s : String) : String :=
  String.mk (colonRep (colonSpaceRep s.toList))

/-! ## Movies metadata resolver (emgo-movies.js fetchMovie, lines 105-123) -/

structure MovieRec where
  title : String
  release_date : Option String
  deriving DecidableEq

structure MovieEnv where
  tmdb : String → Option String → List MovieRec
  omdb : String → Option String → Option String

/-- Metadata cache state: in-memory object plus the JSON file on disk. -/
structure MetaSt where
  cache : List (String × MovieRec)
  persisted : List (String × MovieRec)
  deriving DecidableEq

/-- Cache key of line 106. -/
def mkMovieKey (q : String) (y : Option String) : String :=
  lowStr q ++ "|" ++ y.getD ""

/-- release_date optional-chained startsWith String(year), line 111. -/
def rdMatches (r : MovieRec) (y : Option String) : Bool :=
  match r.release_date with
  | some d => strStarts d (y.getD "null")
  | none => false

/-- fetchMovie with recursion fuel; returns (result, state, network calls made).
    A TMDb query counts one call, an OMDb query one more.  Rate limiting is not
    modelled (the environment answers directly); a provider error behaves like
    an empty result list, exactly as the catch branches fall through. -/
def fetchMovie : Nat → MovieEnv → String → Option String → MetaSt →
    Option MovieRec × MetaSt × Nat
  | 0, _, _, _, st => (none, st, 0)
  | fuel + 1, env, q, y, st =>
    let key := mkMovieKey q y
    match alookup key st.cache with
    | some r => (some r, st, 0)
    | none =>
      match env.tmdb q y with
      | r :: rs =>
        let best := (List.find? (fun x => rdMatches x y) (r :: rs)).getD r
        let cache' := (key, best) :: st.cache
        (some best, ⟨cache', cache'⟩, 1)
      | [] =>
        match env.omdb q y with
        | some t =>
          let out := fetchMovie fuel env t y st
          (out.1, out.2.1, out.2.2 + 2)
        | none => (none, st, 2)

/-! ## Movies link materializer (emgo-movies.js createSymlink, lines 136-172) -/

structure ParsedMovie where
  rawTitle : String
  year : Option String
  descriptors : String
  deriving DecidableEq

/-- Filesystem failure environment: which ensureDir / symlink calls fail. -/
structure FsEnv where
  dirFail : String → Bool
  linkFail : String → Bool

def FsEnv.reliable (e : FsEnv) : Prop :=
  ∀ p, e.dirFail p = false ∧ e.linkFail p = false

/-- Link-materializer state: link cache (memory and disk), directories, links. -/
structure LSt where
  linkCache : List (String × String)
  persistedLink : List (String × String)
  dirs : List String
  files : List String
  deriving DecidableEq

def pathExistsL (st : LSt) (p : String) : Bool :=
  decide (p ∈ st.files ∨ p ∈ st.dirs)

/-- Line 138: link-cache entry whose recorded destination still exists. -/
def movieCacheHit (fileName : String) (st : LSt) : Bool :=
  match alookup fileName st.linkCache with
  | some d => pathExistsL st d
  | none => false

def movieTitleOf (rec : MovieRec) (rawTitle : String) : String :=
  movieSanitizeTitle (jsOr rec.title rawTitle)

def movieYearOf (rec : MovieRec) (year : Option String) : String :=
  jsOr (match rec.release_date with | some d => splitDashHead d | none => "")
    (jsOr (year.getD "") "0000")

def movieFolder (destDir : String) (p : ParsedMovie) (rec : MovieRec) : String :=
  destDir ++ "/" ++ movieTitleOf rec p.rawTitle ++ " (" ++ movieYearOf rec p.year ++ ")"

def movieDestFile (destDir ext : String) (p : ParsedMovie) (rec : MovieRec) : String :=
  movieFolder destDir p rec ++ "/" ++ movieTitleOf rec p.rawTitle ++ " (" ++
    movieYearOf rec p.year ++ ")" ++
    (if p.descriptors = "" then "" else " - " ++ p.descriptors) ++ ext

/-- Lines 160-171: destination check, dry run, symlink attempt with caught
    failure, cache write flushed to disk on success.  Returns the new state
    together with (symlink attempts, logged symlink errors). -/
def movieMatLink (fileName dest : String) (dry : Bool) (env : FsEnv) (st : LSt) :
    Except Unit (LSt × Nat × Nat) :=
  if pathExistsL st dest then .ok (st, 0, 0)
  else if dry then .ok (st, 0, 0)
  else if env.linkFail dest then .ok (st, 1, 1)
  else
    let cache' := (fileName, dest) :: st.linkCache
    let st' : LSt :=
      { st with files := dest :: st.files, linkCache := cache',
                persistedLink := cache' }
    .ok (st', 1, 0)

/-- createSymlink of emgo-movies.js with parsing and metadata resolution
    factored out (the claim quantifies over parsed release and provider
    record).  ensureDir failure (line 159) is uncaught and surfaces as an
    Except error, aborting the caller. -/
def createSymlinkMat (fileName ext destDir : String) (p : ParsedMovie)
    (movie : Option MovieRec) (dry : Bool) (env : FsEnv) (st : LSt) :
    Except Unit (LSt × Nat × Nat) :=
  if movieCacheHit fileName st then .ok (st, 0, 0)
  else if p.rawTitle.toList.length < 2 then .ok (st, 0, 0)
  else
    match movie with
    | none => .ok (st, 0, 0)
    | some rec =>
      let folder := movieFolder destDir p rec
      if folder ∈ st.dirs then
        movieMatLink fileName (movieDestFile destDir ext p rec) dry env st
      else if env.dirFail folder then .error ()
      else
        movieMatLink fileName (movieDestFile destDir ext p rec) dry env
          { st with dirs := folder :: st.dirs }

structure MovieItem where
  fileName : String
  ext : String
  parsed : ParsedMovie
  movie : Option MovieRec

/-- The movies main loop (lines 229): no try/catch around createSymlink, so an
    uncaught error aborts the remaining batch.  Returns the final state (none
    when aborted) and the list of files whose processing was started. -/
def runBatchMovies (destDir : String) (dry : Bool) (env : FsEnv) :
    List MovieItem → LSt → Option LSt × List String
  | [], st => (some st, [])
  | it :: rest, st =>
    match createSymlinkMat it.fileName it.ext destDir it.parsed it.movie dry env st with
    | .error _ => (none, [it.fileName])
    | .ok (st', _, _) =>
      let out := runBatchMovies destDir dry env rest st'
      (out.1, it.fileName :: out.2)

example : movieSanitizeTitle "Avatar: The Way of Water" = "Avatar - The Way of Water" := by
  decide

example :
    (fetchMovie 2
      { tmdb := fun _ _ => [], omdb := fun _ _ => none }
      "Dune" (some "2021") ⟨[], []⟩).2.2 = 2 := by
  decide

/-! ## Character-level regex scanners

The drivers mirror the JS engine: global replacement and collection scan the
original string left to right, resume after each match, and track the
original previous character for word-boundary tests. -/

def prevWord (prev : Option Char) : Bool :=
  match prev with
  | some p => isWordC p
  | none => false

def afterOkAt (cs : List Char) : Bool :=
  match cs with
  | [] => true
  | c :: _ => !isWordC c

def digitRun (cs : List Char) : Nat :=
  (cs.takeWhile (fun c => isDigitC c)).length

/-- Global replace driver with structural fuel (the fuel never runs out when
    it starts at the length of the list, since a match consumes at least one
    character): tryf gives the length of a match starting at the current
    position (ignored unless positive); matches become rep. -/
def scanRepF (tryf : Option Char → List Char → Option Nat) (rep : List Char) :
    Nat → Option Char → List Char → List Char
  | 0, _, cs => cs
  | _ + 1, _, [] => []
  | fuel + 1, prev, c :: rest =>
    match tryf prev (c :: rest) with
    | some (n + 1) =>
      rep ++ scanRepF tryf rep fuel (((c :: rest).drop n).head?) ((c :: rest).drop (n + 1))
    | _ => c :: scanRepF tryf rep fuel (some c) rest

def scanRep (tryf : Option Char → List Char → Option Nat) (rep : List Char)
    (prev : Option Char) (cs : List Char) : List Char :=
  scanRepF tryf rep cs.length prev cs

/-- Global match collection driver (String.prototype.match with the g flag). -/
def scanCollF (tryf : Option Char → List Char → Option Nat) :
    Nat → Option Char → List Char → List (List Char)
  | 0, _, _ => []
  | _ + 1, _, [] => []
  | fuel + 1, prev, c :: rest =>
    match tryf prev (c :: rest) with
    | some (n + 1) =>
      (c :: rest).take (n + 1) ::
        scanCollF tryf fuel (((c :: rest).drop n).head?) ((c :: rest).drop (n + 1))
    | _ => scanCollF tryf fuel (some c) rest

def scanColl (tryf : Option Char → List Char → Option Nat)
    (prev : Option Char) (cs : List Char) : List (List Char) :=
  scanCollF tryf cs.length prev cs

/-- First-match driver: position of the leftmost match and its payload. -/
def scanFirst {α : Type} (tryf : Option Char → List Char → Option α) :
    Option Char → Nat → List Char → Option (Nat × α)
  | _, _, [] => none
  | prev, i, c :: rest =>
    match tryf prev (c :: rest) with
    | some g => some (i, g)
    | none => scanFirst tryf (some c) (i + 1) rest

/-- Non-global replace by the empty string: splice out the first match. -/
def removeFirst (tryf : Option Char → List Char → Option Nat) :
    Option Char → List Char → List Char
  | _, [] => []
  | prev, c :: rest =>
    match tryf prev (c :: rest) with
    | some n => (c :: rest).drop n
    | none => c :: removeFirst tryf (some c) rest

/-- Case-insensitive literal prefix test; the pattern is given lowercase. -/
def ciPref (pat cs : List Char) : Bool :=
  hasPref pat ((cs.take pat.length).map lowC)

/-- Word-boundary guarded, ordered alternation of literal keywords.  Every
    alternative in the embedded regexes begins and ends with a word
    character, so both boundaries reduce to the neighbour not being a word
    character. -/
def altAt (alts : List (List Char)) (prev : Option Char) (cs : List Char) : Option Nat :=
  if prevWord prev then none
  else
    alts.findSome? fun a =>
      if ciPref a cs ∧ afterOkAt (cs.drop a.length) then some a.length else none

def replChars (set : List Char) (tc : Char) (cs : List Char) : List Char :=
  cs.map (fun c => if c ∈ set then tc else c)

/-- Matches an open parenthesis, four digits, close parenthesis. -/
def tryParenYear (_ : Option Char) (cs : List Char) : Option Nat :=
  match cs with
  | '(' :: a :: b :: c :: d :: ')' :: _ =>
    if isDigitC a ∧ isDigitC b ∧ isDigitC c ∧ isDigitC d then some 6 else none
  | _ => none

/-- Lazy bracketed tag: an opening bracket up to the nearest closing bracket
    (the dot of the lazy body does not cross a newline). -/
def tryBracket (_ : Option Char) (cs : List Char) : Option Nat :=
  match cs with
  | '[' :: rest =>
    match rest.findIdx? (fun c => c = ']' || c = '\n') with
    | some i =>
      match (rest.drop i).head? with
      | some ']' => some (i + 2)
      | _ => none
    | none => none
  | _ => none

/-- The word Season, an optional whitespace, one to three digits, boundary. -/
def trySeasonWord (prev : Option Char) (cs : List Char) : Option Nat :=
  if prevWord prev then none
  else if ciPref "season".toList cs then
    let rest := cs.drop 6
    let withSep : Option Nat :=
      match rest with
      | c :: rest2 =>
        if isSpaceC c then
          let r := digitRun rest2
          if 1 ≤ r ∧ r ≤ 3 ∧ afterOkAt (rest2.drop r) then some (7 + r) else none
        else none
      | [] => none
    match withSep with
    | some n => some n
    | none =>
      let r := digitRun rest
      if 1 ≤ r ∧ r ≤ 3 ∧ afterOkAt (rest.drop r) then some (6 + r) else none
  else none

/-- A bare S followed by one or two digits, with word boundaries. -/
def tryS12 (prev : Option Char) (cs : List Char) : Option Nat :=
  if prevWord prev then none
  else
    match cs with
    | c :: rest =>
      if lowC c = 's' then
        let r := digitRun rest
        if 1 ≤ r ∧ r ≤ 2 ∧ afterOkAt (rest.drop r) then some (1 + r) else none
      else none
    | [] => none

/-- Three or four digits followed by the letter p, with word boundaries. -/
def tryResP (prev : Option Char) (cs : List Char) : Option Nat :=
  if prevWord prev then none
  else
    let r := digitRun cs
    let pOk : Bool :=
      match (cs.drop r).head? with
      | some c => lowC c = 'p'
      | none => false
    if (r = 3 ∨ r = 4) ∧ pOk ∧ afterOkAt (cs.drop (r + 1)) then some (r + 1)
    else none

/-- A run of whitespace (one or more). -/
def tryWs (_ : Option Char) (cs : List Char) : Option Nat :=
  let r := (cs.takeWhile (fun c => isSpaceC c)).length
  if 1 ≤ r then some r else none

/-- A run of whitespace of length at least two. -/
def tryWs2 (_ : Option Char) (cs : List Char) : Option Nat :=
  let r := (cs.takeWhile (fun c => isSpaceC c)).length
  if 2 ≤ r then some r else none

/-- A year 19xx or 20xx with word boundaries. -/
def tryYear (prev : Option Char) (cs : List Char) : Option Nat :=
  if prevWord prev then none
  else
    match cs with
    | a :: b :: c :: d :: rest =>
      if ((a = '1' ∧ b = '9') ∨ (a = '2' ∧ b = '0')) ∧ isDigitC c ∧ isDigitC d ∧
         afterOkAt rest then some 4 else none
    | _ => none

/-- Greedy three-or-four digit run with no boundary (the anime digit strip). -/
def tryDigits34 (_ : Option Char) (cs : List Char) : Option Nat :=
  let r := digitRun cs
  if 4 ≤ r then some 4 else if r = 3 then some 3 else none

/-! ## Season/episode matchers -/

/-- Capture record for the season/episode regexes: the stop field is the end
    episode group and extra the middle capture of the x-form. -/
structure SEG where
  season : Nat
  start : Nat
  stop : Option Nat
  extra : Option Nat
  len : Nat
  deriving DecidableEq

def twoDigitsAt (cs : List Char) : Option Nat :=
  match cs with
  | a :: b :: _ => if isDigitC a ∧ isDigitC b then some (digitsVal [a, b]) else none
  | _ => none

def isEAt (cs : List Char) : Bool :=
  match cs with
  | c :: _ => lowC c = 'e'
  | [] => false

def isXAt (cs : List Char) : Bool :=
  match cs with
  | c :: _ => lowC c = 'x'
  | [] => false

/-- Optional tail of the series S-form: dash, optional E, two digits. -/
def r1sOpt (cs : List Char) : Option Nat × Nat :=
  match cs with
  | '-' :: rest =>
    (match rest with
     | e :: rest2 =>
       if lowC e = 'e' then
         match twoDigitsAt rest2 with
         | some v => (some v, 4)
         | none => (none, 0)
       else
         match twoDigitsAt (e :: rest2) with
         | some v => (some v, 3)
         | none => (none, 0)
     | [] => (none, 0))
  | _ => (none, 0)

/-- Series regex 1: S, one or two digit season, E, two digit start, lazy
    never-taken extra repetition, optional dash end episode. -/
def tryR1s (cs : List Char) : Option SEG :=
  match cs with
  | s :: rest =>
    if lowC s = 's' then
      let k : Option Nat :=
        if 2 ≤ digitRun rest ∧ isEAt (rest.drop 2) then some 2
        else if 1 ≤ digitRun rest ∧ isEAt (rest.drop 1) then some 1
        else none
      match k with
      | some kk =>
        let afterE := rest.drop (kk + 1)
        match twoDigitsAt afterE with
        | some st =>
          let opt := r1sOpt (afterE.drop 2)
          some ⟨digitsVal (rest.take kk), st, opt.1, none, kk + 4 + opt.2⟩
        | none => none
      | none => none
    else none
  | [] => none

/-- Optional tail of the gemini S-form: optional dash, mandatory E, digits. -/
def r1gOpt (cs : List Char) : Option Nat × Nat :=
  match cs with
  | '-' :: e :: rest =>
    if lowC e = 'e' then
      match twoDigitsAt rest with
      | some v => (some v, 4)
      | none => (none, 0)
    else (none, 0)
  | e :: rest =>
    if lowC e = 'e' then
      match twoDigitsAt rest with
      | some v => (some v, 3)
      | none => (none, 0)
    else (none, 0)
  | [] => (none, 0)

def tryR1g (cs : List Char) : Option SEG :=
  match cs with
  | s :: rest =>
    if lowC s = 's' then
      let k : Option Nat :=
        if 2 ≤ digitRun rest ∧ isEAt (rest.drop 2) then some 2
        else if 1 ≤ digitRun rest ∧ isEAt (rest.drop 1) then some 1
        else none
      match k with
      | some kk =>
        let afterE := rest.drop (kk + 1)
        match twoDigitsAt afterE with
        | some st =>
          let opt := r1gOpt (afterE.drop 2)
          some ⟨digitsVal (rest.take kk), st, opt.1, none, kk + 4 + opt.2⟩
        | none => none
      | none => none
    else none
  | [] => none

/-- Optional tail of the series x-form: x and two digits (extra capture). -/
def r2sOpt (cs : List Char) : Option Nat × Nat :=
  match cs with
  | x :: rest =>
    if lowC x = 'x' then
      match twoDigitsAt rest with
      | some v => (some v, 3)
      | none => (none, 0)
    else (none, 0)
  | [] => (none, 0)

def tryR2s (cs : List Char) : Option SEG :=
  let k : Option Nat :=
    if 2 ≤ digitRun cs ∧ isXAt (cs.drop 2) then some 2
    else if 1 ≤ digitRun cs ∧ isXAt (cs.drop 1) then some 1
    else none
  match k with
  | some kk =>
    let afterX := cs.drop (kk + 1)
    match twoDigitsAt afterX with
    | some st =>
      let opt := r2sOpt (afterX.drop 2)
      some ⟨digitsVal (cs.take kk), st, none, opt.1, kk + 3 + opt.2⟩
    | none => none
  | none => none

/-- Optional tail of the gemini x-form: optional dash, x, two digits. -/
def r2gOpt (cs : List Char) : Option Nat × Nat :=
  match cs with
  | '-' :: x :: rest =>
    if lowC x = 'x' then
      match twoDigitsAt rest with
      | some v => (some v, 4)
      | none => (none, 0)
    else (none, 0)
  | x :: rest =>
    if lowC x = 'x' then
      match twoDigitsAt rest with
      | some v => (some v, 3)
      | none => (none, 0)
    else (none, 0)
  | [] => (none, 0)

def tryR2g (cs : List Char) : Option SEG :=
  let k : Option Nat :=
    if 2 ≤ digitRun cs ∧ isXAt (cs.drop 2) then some 2
    else if 1 ≤ digitRun cs ∧ isXAt (cs.drop 1) then some 1
    else none
  match k with
  | some kk =>
    let afterX := cs.drop (kk + 1)
    match twoDigitsAt afterX with
    | some st =>
      let opt := r2gOpt (afterX.drop 2)
      some ⟨digitsVal (cs.take kk), st, opt.1, none, kk + 3 + opt.2⟩
    | none => none
  | none => none

/-- Series regex 3: a digit, two digits, optional separator and end pair. -/
def tryR3s (cs : List Char) : Option SEG :=
  match cs with
  | a :: b :: c :: rest =>
    if isDigitC a ∧ isDigitC b ∧ isDigitC c then
      let opt : Option Nat × Nat :=
        match rest with
        | sep :: rest2 =>
          if sep = '-' ∨ sep = '_' ∨ sep = ' ' then
            match twoDigitsAt rest2 with
            | some v => (some v, 3)
            | none => (none, 0)
          else (none, 0)
        | [] => (none, 0)
      some ⟨digitsVal [a], digitsVal [b, c], opt.1, none, 3 + opt.2⟩
    else none
  | _ => none

/-- Gemini regex 3: three digits with no digit on either side. -/
def tryR3g (prev : Option Char) (cs : List Char) : Option SEG :=
  if (match prev with | some p => isDigitC p | none => false) then none
  else
    match cs with
    | a :: b :: c :: rest =>
      let noDigitAfter : Bool :=
        match rest with
        | d :: _ => !isDigitC d
        | [] => true
      if isDigitC a ∧ isDigitC b ∧ isDigitC c ∧ noDigitAfter then
        some ⟨digitsVal [a], digitsVal [b, c], none, none, 3⟩
      else none
    | _ => none

/-! ## Gemini series parser (emgo-gemini-series.js, lines 72-123) -/

def stripExtL (cs : List Char) : List Char :=
  let r := cs.reverse
  match r.findIdx? (fun c => c = '.') with
  | some i => (r.drop (i + 1)).reverse
  | none => cs

def extOfL (cs : List Char) : List Char :=
  let r := cs.reverse
  match r.findIdx? (fun c => c = '.') with
  | some i => (r.take (i + 1)).reverse
  | none => []

def geminiKw : List String :=
  ["2160p", "1080p", "720p", "480p", "hdr", "web-dl", "webdl", "webrip",
   "bluray", "remux", "hdtv", "x264", "x265", "hevc", "aac", "ac3", "dts",
   "10bit", "ddp", "atmos", "amzn", "nf", "dsnp"]

def geminiKwL : List (List Char) := geminiKw.map String.toList

def cleanTitleG (s : String) : String :=
  let l1 := scanRep (altAt geminiKwL) [' '] none s.toList
  let l2 := scanRep tryBracket [' '] none l1
  let l3 := scanRep tryParenYear [' '] none l2
  let l4 := replChars ['-', '.', '_'] ' ' l3
  let l5 := scanRep tryWs2 [' '] none l4
  jsTrim (String.mk l5)

structure GParsed where
  rawTitle : String
  season : String
  episodes : List String
  deriving DecidableEq

inductive GPRes where
  | ok (p : GParsed)
  | skippedSpecial
  | unparsable
  deriving DecidableEq

/-- The JS episode loop, push every value from s up to e, written with a
    structural counter so that it evaluates by kernel reduction. -/
def pushRangeGo : Nat → Nat → List Nat
  | 0, _ => []
  | n + 1, s => s :: pushRangeGo n (s + 1)

def pushRange (s e : Nat) : List Nat := pushRangeGo (e + 1 - s) s

/-- The counter formulation agrees with the loop guard formulation. -/
theorem pushRange_eq (s e : Nat) :
    pushRange s e = if s ≤ e then s :: pushRange (s + 1) e else [] := by
  unfold pushRange
  rcases Nat.lt_or_ge e s with h | h
  · have h0 : e + 1 - s = 0 := by omega
    rw [h0]
    simp [pushRangeGo, Nat.not_le.mpr h]
  · have h1 : e + 1 - s = (e + 1 - (s + 1)) + 1 := by omega
    rw [h1]
    simp [pushRangeGo, h]

/-- The gemini episode-list computation (lines 104-113): whenever the end
    group is present the range is expanded with no span bound. -/
def geminiEpisodes (start : Nat) (stop : Option Nat) : List String :=
  match stop with
  | some e => (pushRange start e).map (fun i => padZero 2 (toString i))
  | none => [padZero 2 (toString start)]

def geminiScan (baseName : List Char) : Option (Nat × SEG) :=
  (scanFirst (fun _ cs => tryR1g cs) none 0 baseName) <|>
  (scanFirst (fun _ cs => tryR2g cs) none 0 baseName) <|>
  (scanFirst tryR3g none 0 baseName)

def parseFileNameG (filename : String) : GPRes :=
  let baseName := replChars ['.', '_'] ' ' (stripExtL filename.toList)
  match geminiScan baseName with
  | none => .unparsable
  | some (idx, g) =>
    if g.season = 0 then .skippedSpecial
    else
      .ok ⟨cleanTitleG (String.mk (baseName.take idx)),
           padZero 2 (toString g.season),
           geminiEpisodes g.start g.stop⟩

example :
    parseFileNameG "Show.S01E01-E03.mkv" =
      .ok ⟨"Show", "01", ["01", "02", "03"]⟩ := by decide

example :
    parseFileNameG "Show.S01E01-E25.mkv" =
      .ok ⟨"Show", "01",
        ["01", "02", "03", "04", "05", "06", "07", "08", "09", "10", "11",
         "12", "13", "14", "15", "16", "17", "18", "19", "20", "21", "22",
         "23", "24", "25"]⟩ := by decide

example : parseFileNameG "Show.S00E01.mkv" = .skippedSpecial := by decide

/-! ## Gemini series materializer (emgo-gemini-series.js processFile) -/

structure ShowRec where
  name : String
  first_air_date : Option String
  deriving DecidableEq

structure GSt where
  symlinkCache : List (String × String)
  persistedLink : List (String × String)
  dirs : List String
  files : List String
  deriving DecidableEq

def pathExistsG (st : GSt) (p : String) : Bool :=
  decide (p ∈ st.files ∨ p ∈ st.dirs)

def gCacheHit (fileName : String) (st : GSt) : Bool :=
  match alookup fileName st.symlinkCache with
  | some d => pathExistsG st d
  | none => false

/-- show.name with colons removed (line 185). -/
def gShowTitle (r : ShowRec) : String :=
  String.mk (r.name.toList.filter (fun c => c ≠ ':'))

/-- first_air_date year or N/A (line 186). -/
def gYear (r : ShowRec) : String :=
  match r.first_air_date with
  | some d => if d = "" then "N/A" else splitDashHead d
  | none => "N/A"

def gSeasonFolder (destDir : String) (r : ShowRec) (season : String) : String :=
  destDir ++ "/" ++ gShowTitle r ++ " (" ++ gYear r ++ ")" ++ "/Season " ++
    jsNumStr (jsParseInt season.toList)

def gDestPath (destDir : String) (r : ShowRec) (season ep ext : String) : String :=
  gSeasonFolder destDir r season ++ "/" ++ gShowTitle r ++ " - S" ++ season ++
    "E" ++ ep ++ ext

/-- The per-episode loop, lines 189-211: existing destinations are skipped,
    dry run only logs, otherwise ensureDir and symlink run inside one caught
    try.  The symlink cache is updated in memory only; nothing is persisted
    here.  Returns (state, symlink attempts, caught errors). -/
def gLoop (fileName folder : String) (mkDest : String → String) (dry : Bool)
    (env : FsEnv) : List String → GSt → GSt × Nat × Nat
  | [], st => (st, 0, 0)
  | ep :: rest, st =>
    let dest := mkDest ep
    if pathExistsG st dest then gLoop fileName folder mkDest dry env rest st
    else if dry then gLoop fileName folder mkDest dry env rest st
    else if folder ∉ st.dirs ∧ env.dirFail folder then
      let out := gLoop fileName folder mkDest dry env rest st
      (out.1, out.2.1, out.2.2 + 1)
    else
      let st1 : GSt := if folder ∈ st.dirs then st else { st with dirs := folder :: st.dirs }
      if env.linkFail dest then
        let out := gLoop fileName folder mkDest dry env rest st1
        (out.1, out.2.1 + 1, out.2.2 + 1)
      else
        let st2 : GSt :=
          { st1 with files := dest :: st1.files,
                     symlinkCache := (fileName, dest) :: st1.symlinkCache }
        let out := gLoop fileName folder mkDest dry env rest st2
        (out.1, out.2.1 + 1, out.2.2)

/-- processFile of emgo-gemini-series.js with parsing and metadata resolution
    factored out (the cache-hit test of line 155, the null checks of lines
    161-183, and the episode loop). -/
def geminiMat (fileName ext destDir : String) (parsed : Option GParsed)
    (showR : Option ShowRec) (dry : Bool) (env : FsEnv) (st : GSt) :
    GSt × Nat × Nat :=
  if gCacheHit fileName st then (st, 0, 0)
  else
    match parsed with
    | none => (st, 0, 0)
    | some p =>
      if p.rawTitle = "" then (st, 0, 0)
      else
        match showR with
        | none => (st, 0, 0)
        | some r =>
          gLoop fileName (gSeasonFolder destDir r p.season)
            (fun ep => gDestPath destDir r p.season ep ext) dry env p.episodes st

/-! ## Series machinery (emgo-series.js) -/

def joinSpace : List String → String
  | [] => ""
  | [x] => x
  | x :: y :: rest => x ++ " " ++ joinSpace (y :: rest)

def dedupGo {α : Type} [DecidableEq α] (seen : List α) : List α → List α
  | [] => []
  | x :: xs => if x ∈ seen then dedupGo seen xs else x :: dedupGo (x :: seen) xs

def dedupL {α : Type} [DecidableEq α] (l : List α) : List α := dedupGo [] l

def indexOfSub (needle : List Char) : List Char → Option Nat
  | [] => if needle.isEmpty then some 0 else none
  | c :: rest =>
    if hasPref needle (c :: rest) then some 0
    else (indexOfSub needle rest).map (· + 1)

def splitSlash : List Char → List (List Char)
  | [] => [[]]
  | c :: rest =>
    let out := splitSlash rest
    if c = '/' then [] :: out
    else
      match out with
      | h :: t => (c :: h) :: t
      | [] => [[c]]

/-- path.basename. -/
def basenameL (cs : List Char) : List Char :=
  match (splitSlash cs).reverse with
  | h :: _ => h
  | [] => cs

/-- path.basename of path.dirname. -/
def parentComp (cs : List Char) : List Char :=
  match (splitSlash cs).reverse with
  | _ :: p :: _ => p
  | _ => ['.']

/-- allKeywordsRegex of emgo-series.js line 27, alternatives in source order
    with the bounded subpatterns expanded to their literal cases. -/
def seriesKw : List String :=
  ["2160p", "1080p", "720p", "480p", "hdr", "web-dl", "web dl", "webdl",
   "webrip", "bluray", "remux", "hdtv", "x264", "x265", "aac", "ac3", "dts",
   "flac", "hevc", "10bit", "h.264", "h264", "265", "ddp", "atmos", "mrs",
   "mrtentsaw", "ani", "batch", "tv", "amzn"]

def seriesKwL : List (List Char) := seriesKw.map String.toList

/-- Keyword family of the series cleaning pass (line 38). -/
def seriesCleanKw : List String :=
  ["web-dl", "web dl", "webdl", "webrip", "bluray", "hdtv", "x264", "x265",
   "h.264", "h264", "h.265", "h265", "aac", "ac3", "dts", "flac", "hevc",
   "10bit", "ddp", "atmos", "amzn", "nf", "dsnp", "ani", "mrs", "mrs"]

def seriesCleanKwL : List (List Char) := seriesCleanKw.map String.toList

/-- cleanTitle of emgo-series.js (lines 59-65): the eight cleaning regexes
    applied in order, each replaced by a space, then trim. -/
def cleanTitleS (s : String) : String :=
  let l1 := scanRep tryParenYear [' '] none s.toList
  let l2 := scanRep trySeasonWord [' '] none l1
  let l3 := scanRep tryS12 [' '] none l2
  let l4 := replChars ['-', '_', '.'] ' ' l3
  let l5 := scanRep tryBracket [' '] none l4
  let l6 := scanRep tryResP [' '] none l5
  let l7 := scanRep (altAt seriesCleanKwL) [' '] none l6
  let l8 := scanRep tryWs [' '] none l7
  jsTrim (String.mk l8)

/-- The matchAll over capital E plus two digits (line 114). -/
def tryEdd (_ : Option Char) (cs : List Char) : Option Nat :=
  match cs with
  | e :: a :: b :: _ =>
    if lowC e = 'e' ∧ isDigitC a ∧ isDigitC b then some 3 else none
  | _ => none

def extraEsOf (name : List Char) : List Nat :=
  (scanColl tryEdd none name).map (fun m => digitsVal ((m.drop 1).take 2))

/-- Episode-list computation of lines 96-118: bounded range expansion when an
    end group is present; otherwise the start episode, the x-form extra
    capture, and the distinct explicit E markers override. -/
def seriesEpisodesCore (g : SEG) (extras : List Nat) : List Nat :=
  match g.stop with
  | some e =>
    if e > g.start ∧ e - g.start ≤ 20 then pushRange g.start e
    else [g.start]
  | none =>
    let base :=
      match g.extra with
      | some x => [g.start, x]
      | none => [g.start]
    if extras.length > 1 then dedupL extras else base

def seriesScan (name : List Char) : Option (Nat × SEG) :=
  (scanFirst (fun _ cs => tryR1s cs) none 0 name) <|>
  (scanFirst (fun _ cs => tryR2s cs) none 0 name) <|>
  (scanFirst (fun _ cs => tryR3s cs) none 0 name)

def seriesDescriptors (name : List Char) : String :=
  joinSpace (dedupL ((scanColl (altAt seriesKwL) none name).map
    (fun m => upStr (String.mk m))))

/-- First-match-only season pattern of line 132 (no boundaries). -/
def trySeasonLoose (_ : Option Char) (cs : List Char) : Option Nat :=
  if ciPref "season".toList cs then
    let rest := cs.drop 6
    match rest with
    | c :: rest2 =>
      if isSpaceC c then
        if 1 ≤ digitRun rest2 then some (7 + digitRun rest2) else none
      else if 1 ≤ digitRun rest then some (6 + digitRun rest) else none
    | [] => none
  else none

/-- Keyword family of the in-parser folder fallback (line 134). -/
def seriesFolderKw : List String :=
  ["x264", "x265", "h.264", "h264", "hevc", "aac", "web-dl", "web dl",
   "webdl", "bluray", "webrip", "remux", "hdtv", "10bit", "batch", "mrs",
   "ani"]

def seriesFolderKwL : List (List Char) := seriesFolderKw.map String.toList

def stripTrailDash (cs : List Char) : List Char :=
  (cs.reverse.dropWhile (fun c => c = '-' ∨ c = '–' ∨ c = '—' ∨ isSpaceC c)).reverse

/-- The in-parser folder-name fallback title (lines 131-137). -/
def parserFolderTitle (folderName : List Char) : String :=
  let f1 := removeFirst trySeasonLoose none folderName
  let f2 := scanRep tryResP [] none f1
  let f3 := scanRep (altAt seriesFolderKwL) [] none f2
  let f4 := stripTrailDash f3
  let f5 := scanRep tryWs2 [' '] none f4
  jsTrim (String.mk f5)

structure SParsed where
  rawTitle : String
  season : String
  episodes : List String
  descriptors : String
  deriving DecidableEq

inductive SPRes where
  | ok (p : SParsed)
  | skippedSpecial
  | unparsable
  deriving DecidableEq

def SPRes.toOption : SPRes → Option SParsed
  | .ok p => some p
  | _ => none

/-- parseFileName of emgo-series.js (lines 67-152). -/
def parseFileNameS (filename : String) : SPRes :=
  let name := replChars ['.', '_'] ' ' (stripExtL filename.toList)
  match seriesScan name with
  | none => .unparsable
  | some (idx, g) =>
    if g.season = 0 then .skippedSpecial
    else
      let eps := seriesEpisodesCore g (extraEsOf name)
      let matchText := (name.drop idx).take g.len
      let seIndex := (indexOfSub matchText name).getD 0
      let t1 := cleanTitleS (String.mk (name.take seIndex))
      let rawTitle :=
        if t1 = "" then
          parserFolderTitle (replChars ['.', '_'] ' ' (parentComp filename.toList))
        else t1
      .ok ⟨rawTitle, padZero 2 (toString g.season),
           eps.map (fun e => padZero 2 (toString e)), seriesDescriptors name⟩

example :
    parseFileNameS "Title.Name.S01E02.1080p.x264.mkv" =
      .ok ⟨"Title Name", "01", ["02"], "1080P X264"⟩ := by decide

example :
    parseFileNameS "Show.S01E01-E03.mkv" =
      .ok ⟨"Show", "01", ["01", "02", "03"], ""⟩ := by decide

example :
    parseFileNameS "Show.S01E01-E25.mkv" =
      .ok ⟨"Show", "01", ["01"], ""⟩ := by decide

example : parseFileNameS "Show.S00E01.mkv" = .skippedSpecial := by decide

/-! ## The combined seasonEpisodeRegex of emgo-series.js line 29

Its third alternative is wrapped in an optional group, so the whole pattern
matches (possibly emptily) at position 0 of every string; its second
alternative spells backslash-d as characters.  The caller (line 244) reads
the numbered groups 1, 2, 3, 5, 6 of whichever alternative matched. -/

structure BMatch where
  b1 : Option String
  b2 : Option String
  b3 : Option String
  b4 : Option String
  b5 : Option String
  b6 : Option String
  b7 : Option String
  b8 : Option String
  b9 : Option String
  deriving DecidableEq

def twoDigitsStrAt (cs : List Char) : Option String :=
  match cs with
  | a :: b :: _ => if isDigitC a ∧ isDigitC b then some (String.mk [a, b]) else none
  | _ => none

/-- Optional tail of the first alternative: optional dash, optional E, two
    digits, greedy with backtracking. -/
def buggyOpt (cs : List Char) : Option String :=
  match cs with
  | '-' :: e :: rest2 =>
    if lowC e = 'e' then twoDigitsStrAt rest2
    else twoDigitsStrAt (e :: rest2)
  | e :: rest =>
    if lowC e = 'e' then twoDigitsStrAt rest
    else twoDigitsStrAt (e :: rest)
  | [] => none

def tryBuggyAlt1 (cs : List Char) : Option BMatch :=
  match cs with
  | s :: rest =>
    if lowC s = 's' then
      let k : Option Nat :=
        if 2 ≤ digitRun rest ∧ isEAt (rest.drop 2) then some 2
        else if 1 ≤ digitRun rest ∧ isEAt (rest.drop 1) then some 1
        else none
      match k with
      | some kk =>
        let afterE := rest.drop (kk + 1)
        match twoDigitsStrAt afterE with
        | some st =>
          some ⟨some (String.mk (rest.take kk)), some st, buggyOpt (afterE.drop 2),
                none, none, none, none, none, none⟩
        | none => none
      | none => none
    else none
  | [] => none

def tryBuggyAlt2 (cs : List Char) : Option BMatch :=
  match cs with
  | b :: rest =>
    if b = '\\' then
      let dr := (rest.takeWhile (fun c => lowC c = 'd')).length
      let k : Option Nat :=
        if 2 ≤ dr ∧ isXAt (rest.drop 2) then some 2
        else if 1 ≤ dr ∧ isXAt (rest.drop 1) then some 1
        else none
      match k with
      | some kk =>
        match rest.drop (kk + 1) with
        | b2 :: d1 :: d2 :: rest2 =>
          if b2 = '\\' ∧ lowC d1 = 'd' ∧ lowC d2 = 'd' then
            let g6 : Option String :=
              match rest2 with
              | x :: b3 :: e1 :: e2 :: _ =>
                if lowC x = 'x' ∧ b3 = '\\' ∧ lowC e1 = 'd' ∧ lowC e2 = 'd' then
                  some (String.mk [b3, e1, e2])
                else none
              | _ => none
            some ⟨none, none, none, some (String.mk ('\\' :: rest.take kk)),
                  some (String.mk [b2, d1, d2]), g6, none, none, none⟩
          else none
        | _ => none
      | none => none
    else none
  | [] => none

def tryBuggyAlt3 (cs : List Char) : Option BMatch :=
  match cs with
  | a :: b :: c :: sep :: d :: e :: _ =>
    if isDigitC a ∧ isDigitC b ∧ isDigitC c ∧ (sep = '-' ∨ sep = '_' ∨ sep = ' ') ∧
       isDigitC d ∧ isDigitC e then
      some ⟨none, none, none, none, none, none, some (String.mk [a]),
            some (String.mk [b, c]), some (String.mk [d, e])⟩
    else none
  | _ => none

/-- The whole combined regex: because the third alternative is optional it
    matches at position 0 of every string, so the leftmost match always sits
    at position 0 and the alternatives are only ever tried there. -/
def buggySEMatch (cs : List Char) : BMatch :=
  match tryBuggyAlt1 cs with
  | some m => m
  | none =>
    match tryBuggyAlt2 cs with
    | some m => m
    | none =>
      match tryBuggyAlt3 cs with
      | some m => m
      | none => ⟨none, none, none, none, none, none, none, none, none⟩

/-- JS truthiness or on possibly-undefined strings. -/
def jsOrO (a b : Option String) : Option String :=
  match a with
  | some s => if s = "" then b else some s
  | none => b

def jsParseIntO (x : Option String) : Option Nat :=
  match x with
  | some s => jsParseInt s.toList
  | none => none

/-! ## Series resolver and materializer (emgo-series.js lines 155-304) -/

structure SeriesEnv where
  tmdbTv : String → Option String → List ShowRec
  omdbT : String → Option String

def fadMatches (r : ShowRec) (y : String) : Bool :=
  match r.first_air_date with
  | some d => strStarts d y
  | none => false

def fetchSeriesFromTMDB (env : SeriesEnv) (query : String)
    (yearHint : Option String) : Option ShowRec :=
  match env.tmdbTv query yearHint with
  | [] => none
  | r :: rs =>
    match yearHint with
    | some y =>
      match List.find? (fun x => fadMatches x y) (r :: rs) with
      | some exact => some exact
      | none => some r
    | none => some r

def yearSlice (cs : List Char) : Option String :=
  (scanFirst tryYear none 0 cs).map (fun p => String.mk ((cs.drop p.1).take 4))

/-- fetchSeriesWithFallback (lines 178-200); the second component counts the
    network requests issued. -/
def fetchSeriesWithFallback (env : SeriesEnv) (query : String) :
    Option ShowRec × Nat :=
  let yearHint := yearSlice query.toList
  let cleanQuery := jsTrim (String.mk (removeFirst tryYear none query.toList))
  match fetchSeriesFromTMDB env cleanQuery yearHint with
  | some s => (some s, 1)
  | none =>
    match env.omdbT cleanQuery with
    | some t => (fetchSeriesFromTMDB env t yearHint, 3)
    | none => (none, 2)

structure SSt where
  tmdbMem : List (String × ShowRec)
  symlinkCache : List (String × String)
  persistedLink : List (String × String)
  dirs : List String
  files : List String
  deriving DecidableEq

def pathExistsS (st : SSt) (p : String) : Bool :=
  decide (p ∈ st.files ∨ p ∈ st.dirs)

/-- The metadata cache key of line 261: the lowercased title alone. -/
def seriesCacheKey (t : String) : String := lowStr t

/-- Lines 263-272: memory cache consult, fallback fetch, cache on success.
    Returns (result, state, network calls). -/
def seriesResolve (env : SeriesEnv) (rawTitle : String) (st : SSt) :
    Option ShowRec × SSt × Nat :=
  match alookup (seriesCacheKey rawTitle) st.tmdbMem with
  | some r => (some r, st, 0)
  | none =>
    let out := fetchSeriesWithFallback env rawTitle
    match out.1 with
    | none => (none, st, out.2)
    | some r =>
      (some r, { st with tmdbMem := (seriesCacheKey rawTitle, r) :: st.tmdbMem },
       out.2)

def seriesCacheHitS (fileName : String) (st : SSt) : Bool :=
  match alookup fileName st.symlinkCache with
  | some d => pathExistsS st d
  | none => false

def sEpDest (baseFolder showTitle season descriptors ext ep : String) : String :=
  baseFolder ++ "/" ++ showTitle ++ " S" ++ season ++ "E" ++ ep ++
    (if descriptors = "" then "" else " - " ++ descriptors) ++ ext

/-- The per-episode loop of lines 280-303: existing destinations skipped,
    dry run logs, symlink failures caught, the link cache persisted after
    each successful creation. -/
def sLoop (fileName baseFolder showTitle season descriptors ext : String)
    (dry : Bool) (env : FsEnv) : List String → SSt → SSt
  | [], st => st
  | ep :: rest, st =>
    let dest := sEpDest baseFolder showTitle season descriptors ext ep
    if pathExistsS st dest then
      sLoop fileName baseFolder showTitle season descriptors ext dry env rest st
    else if dry then
      sLoop fileName baseFolder showTitle season descriptors ext dry env rest st
    else if env.linkFail dest then
      sLoop fileName baseFolder showTitle season descriptors ext dry env rest st
    else
      let cache' := (fileName, dest) :: st.symlinkCache
      let st' : SSt :=
        { st with files := dest :: st.files, symlinkCache := cache',
                  persistedLink := cache' }
      sLoop fileName baseFolder showTitle season descriptors ext dry env rest st'

/-- The caller fallback of lines 238-258: folder name as title, season and
    episode read from groups 1/3/5 and 2/4/6 of the combined regex.  Since
    that regex always matches, the seMatch test always takes its true
    branch. -/
def seriesFallbackParsed (fileName parentFolder : List Char) : SParsed :=
  let m := buggySEMatch fileName
  ⟨cleanTitleS (String.mk parentFolder),
   padZero 2 (jsNumStr (jsParseIntO (jsOrO m.b1 (jsOrO m.b3 m.b5)))),
   [padZero 2 (jsNumStr (jsParseIntO (jsOrO m.b2 (jsOrO m.b4 m.b6))))],
   ""⟩

/-- createSymlink of emgo-series.js (lines 226-304), with the providers and
    filesystem failures supplied as environments.  ensureDir (line 278) is
    outside every try/catch, so its failure is an uncaught Except error. -/
def seriesCreateSymlink (filePath destDir : String) (dry : Bool)
    (env : SeriesEnv) (fenv : FsEnv) (st : SSt) : Except Unit SSt :=
  let fileName := String.mk (basenameL filePath.toList)
  if seriesCacheHitS fileName st then .ok st
  else
    let parsed :=
      match (parseFileNameS fileName).toOption with
      | some p =>
        if p.rawTitle = "" then
          seriesFallbackParsed fileName.toList (parentComp filePath.toList)
        else p
      | none => seriesFallbackParsed fileName.toList (parentComp filePath.toList)
    let res := seriesResolve env parsed.rawTitle st
    match res.1 with
    | none => .ok res.2.1
    | some r =>
      let st1 := res.2.1
      let showTitle := jsOr r.name parsed.rawTitle
      let year :=
        jsOr (match r.first_air_date with | some d => splitDashHead d | none => "")
          "0000"
      let baseFolder := destDir ++ "/" ++ showTitle ++ " (" ++ year ++ ")" ++
        "/Season " ++ jsNumStr (jsParseInt parsed.season.toList)
      let ext := String.mk (extOfL filePath.toList)
      if baseFolder ∈ st1.dirs then
        .ok (sLoop fileName baseFolder showTitle parsed.season parsed.descriptors
          ext dry fenv parsed.episodes st1)
      else if fenv.dirFail baseFolder then .error ()
      else
        .ok (sLoop fileName baseFolder showTitle parsed.season parsed.descriptors
          ext dry fenv parsed.episodes { st1 with dirs := baseFolder :: st1.dirs })

/-! ## Anime variant (emgo-anime.js) -/

/-- allKeywordsRegex of emgo-anime.js line 24. -/
def animeKw : List String :=
  ["2160p", "1080p", "720p", "480p", "hdr", "web-dl", "web dl", "webdl",
   "webrip", "bluray", "remux", "hdtv", "x264", "x265", "aac", "ac3", "dts",
   "flac", "hevc", "10bit", "h.264", "265", "ddp", "atmos", "amzn", "nf",
   "dsnp"]

def animeKwL : List (List Char) := animeKw.map String.toList

/-- Keyword family of the anime cleaning pass (line 27). -/
def animeCleanKw : List String :=
  ["web-dl", "web dl", "webdl", "webrip", "bluray", "x264", "x265", "h.264",
   "hevc", "aac", "ac3", "dts", "flac", "10bit", "ddp", "atmos", "amzn",
   "nf", "dsnp"]

def animeCleanKwL : List (List Char) := animeCleanKw.map String.toList

/-- cleanTitle of emgo-anime.js (lines 34-38). -/
def cleanTitleA (s : String) : String :=
  let l1 := scanRep tryParenYear [' '] none s.toList
  let l2 := scanRep tryBracket [' '] none l1
  let l3 := replChars ['-', '_', '.'] ' ' l2
  let l4 := scanRep tryResP [' '] none l3
  let l5 := scanRep (altAt animeCleanKwL) [' '] none l4
  let l6 := scanRep tryWs [' '] none l5
  jsTrim (String.mk l6)

/-- The episode matcher of line 50: three digits not followed by a digit. -/
def tryWin (_ : Option Char) (cs : List Char) : Option String :=
  match cs with
  | a :: b :: c :: rest =>
    let noDigitAfter : Bool :=
      match rest with
      | d :: _ => !isDigitC d
      | [] => true
    if isDigitC a ∧ isDigitC b ∧ isDigitC c ∧ noDigitAfter then
      some (String.mk [a, b, c])
    else none
  | _ => none

def animeWin (cs : List Char) : Option (Nat × String) :=
  scanFirst tryWin none 0 cs

/-- The folder-derived title of lines 60-61. -/
def animeRawTitle (folderName : List Char) : String :=
  let f1 := scanRep tryDigits34 [] none folderName
  let f2 := scanRep tryBracket [] none f1
  let t := cleanTitleA (String.mk f2)
  if t = "" then "Unknown" else t

def animeDescriptors (folderName fileName : List Char) : String :=
  joinSpace (dedupL ((scanColl (altAt animeKwL) none
    (folderName ++ ' ' :: fileName)).map (fun m => upStr (String.mk m))))

/-- parseAnimeFileName (lines 45-71). -/
def parseAnimeFileName (filePath : String) : Option SParsed :=
  let fileName := replChars ['_', '.'] ' ' (stripExtL (basenameL filePath.toList))
  let folderName := replChars ['_', '.'] ' ' (parentComp filePath.toList)
  match animeWin fileName with
  | none => none
  | some (_, m) =>
    some ⟨animeRawTitle folderName, "01",
          [padZero 3 (jsNumStr (jsParseInt m.toList))],
          animeDescriptors folderName fileName⟩

structure AnimeRec where
  name : String
  first_air_date : Option String
  genre_ids : List Nat
  origin_country : List String
  deriving DecidableEq

structure AnimeEnv where
  fetchTv : String → Option String → List AnimeRec

/-- The candidate selection of fetchSeries (lines 81-88). -/
def animeBest (l : List AnimeRec) (y : Option String) : Option AnimeRec :=
  match l with
  | [] => none
  | r0 :: _ =>
    let cands := l.filter (fun c => c.genre_ids.contains 16 && c.origin_country.contains "JP")
    match List.find? (fun c =>
        match c.first_air_date with
        | some d => strStarts d (y.getD "undefined")
        | none => false) cands with
    | some b => some b
    | none =>
      match cands with
      | c :: _ => some c
      | [] => some r0

def animeFetchSeries (env : AnimeEnv) (q : String) (y : Option String) :
    Option AnimeRec :=
  animeBest (env.fetchTv q y) y

structure ASt where
  dirs : List String
  files : List String
  deriving DecidableEq

def pathExistsA (st : ASt) (p : String) : Bool :=
  decide (p ∈ st.files ∨ p ∈ st.dirs)

def aEpDest (baseFolder showTitle season descriptors ext ep : String) : String :=
  baseFolder ++ "/" ++ showTitle ++ " S" ++ season ++ "E" ++ ep ++
    (if descriptors = "" then "" else " - " ++ descriptors) ++ ext

def aLoop (baseFolder showTitle season descriptors ext : String) (dry : Bool)
    (env : FsEnv) : List String → ASt → ASt
  | [], st => st
  | ep :: rest, st =>
    let dest := aEpDest baseFolder showTitle season descriptors ext ep
    if pathExistsA st dest then
      aLoop baseFolder showTitle season descriptors ext dry env rest st
    else if dry then
      aLoop baseFolder showTitle season descriptors ext dry env rest st
    else if env.linkFail dest then
      aLoop baseFolder showTitle season descriptors ext dry env rest st
    else
      aLoop baseFolder showTitle season descriptors ext dry env rest
        { st with files := dest :: st.files }

/-- createSymlink of emgo-anime.js (lines 108-148): no link cache; ensureDir
    (line 124) is outside the try/catch and surfaces as an Except error. -/
def createSymlinkA (filePath destDir : String) (dry : Bool) (env : AnimeEnv)
    (fenv : FsEnv) (st : ASt) : Except Unit ASt :=
  match parseAnimeFileName filePath with
  | none => .ok st
  | some p =>
    if p.rawTitle.toList.length < 2 then .ok st
    else
      let yearHint := yearSlice filePath.toList
      match animeFetchSeries env p.rawTitle yearHint with
      | none => .ok st
      | some r =>
        let showTitle := jsOr r.name p.rawTitle
        let showYear :=
          jsOr (match r.first_air_date with | some d => splitDashHead d | none => "")
            (jsOr (yearHint.getD "") "0000")
        let baseFolder := destDir ++ "/" ++ showTitle ++ " (" ++ showYear ++ ")" ++
          "/Season " ++ jsNumStr (jsParseInt p.season.toList)
        if baseFolder ∈ st.dirs then
          .ok (aLoop baseFolder showTitle p.season p.descriptors
            (String.mk (extOfL filePath.toList)) dry fenv p.episodes st)
        else if fenv.dirFail baseFolder then .error ()
        else
          .ok (aLoop baseFolder showTitle p.season p.descriptors
            (String.mk (extOfL filePath.toList)) dry fenv p.episodes
            { st with dirs := baseFolder :: st.dirs })

/-- The anime main loop (lines 157-163): every file is processed inside its
    own try/catch, so an uncaught error is absorbed and the batch goes on.
    Returns the final state and the files whose processing was started. -/
def runBatchAnime (destDir : String) (dry : Bool) (env : AnimeEnv) (fenv : FsEnv) :
    List String → ASt → ASt × List String
  | [], st => (st, [])
  | f :: rest, st =>
    let st' :=
      match createSymlinkA f destDir dry env fenv st with
      | .ok s => s
      | .error _ => st
    let out := runBatchAnime destDir dry env fenv rest st'
    (out.1, f :: out.2)

example :
    parseAnimeFileName "/src/Great Show/Great Show 067.mkv" =
      some ⟨"Great Show", "01", ["067"], ""⟩ := by decide

example :
    (parseAnimeFileName "/src/Foo/Foo 1234 500.mkv").map (fun p => p.episodes) =
      some ["234"] := by decide

/-! ## General lemmas -/

theorem pushRangeGo_eq_range' (n s : Nat) : pushRangeGo n s = List.range' s n := by
  induction n generalizing s with
  | zero => rfl
  | succ k ih => simp [pushRangeGo, List.range', ih]

theorem pushRange_eq_range' (s e : Nat) :
    pushRange s e = List.range' s (e + 1 - s) := by
  unfold pushRange
  exact pushRangeGo_eq_range' _ _

theorem colonRep_colonSpaceRep (cs : List Char) :
    colonRep (colonSpaceRep cs) = colonRep cs := by
  induction cs using colonSpaceRep.induct with
  | case1 cs ih => simp [colonSpaceRep, colonRep, ih]
  | case2 c cs h ih => simp [colonSpaceRep, colonRep, ih]
  | case3 => simp [colonSpaceRep]

theorem colonRep_no_colon (cs : List Char) : ':' ∉ colonRep cs := by
  induction cs with
  | nil => simp [colonRep]
  | cons c rest ih =>
    by_cases h : c = ':' <;> simp [colonRep, h, ih]
    intro hc
    exact h hc.symm

theorem slashRep_no_colon (cs : List Char) (h : ':' ∉ cs) : ':' ∉ slashRep cs := by
  induction cs with
  | nil => simp [slashRep]
  | cons c rest ih =>
    simp only [List.mem_cons, not_or] at h
    by_cases hc : c = '/' <;> simp [slashRep, hc, ih h.2]
    intro hx
    exact h.1 hx

theorem movieSanitizeTitle_no_colon (s : String) :
    ':' ∉ (movieSanitizeTitle s).toList :=
  slashRep_no_colon _ (colonRep_no_colon _)

theorem no_colon_append {a b : String} (ha : ':' ∉ a.toList) (hb : ':' ∉ b.toList) :
    ':' ∉ (a ++ b).toList := by
  simp only [String.toList, String.data_append, List.mem_append]
  intro h
  rcases h with h | h
  · exact ha h
  · exact hb h

/-- C7: for every canonical title containing a colon, the destination path is
    computed with the colon deterministically rewritten (colon-space becomes
    space-dash-space, each remaining colon becomes space-dash), the rename
    utility rewrite agrees with the creation-time rewrite on every string,
    the Avatar title yields a destination folder containing the rewritten
    name, and the computed destination file path never contains a raw colon
    when the non-title components are colon-free. -/
theorem claim7_colon_sanitization :
    (∀ s : String, fixNamesRewrite s = String.mk (colonRep s.toList)) ∧
    movieSanitizeTitle "Avatar: The Way of Water" = "Avatar - The Way of Water" ∧
    movieFolder "/media/movies" ⟨"Avatar The Way of Water", some "2022", ""⟩
        ⟨"Avatar: The Way of Water", some "2022-12-14"⟩ =
      "/media/movies/Avatar - The Way of Water (2022)" ∧
    (∀ (destDir ext : String) (p : ParsedMovie) (rec : MovieRec),
      ':' ∉ destDir.toList → ':' ∉ (movieYearOf rec p.year).toList →
      ':' ∉ p.descriptors.toList → ':' ∉ ext.toList →
      ':' ∉ (movieDestFile destDir ext p rec).toList) := by
  refine ⟨?_, by decide, by decide, ?_⟩
  · intro s
    unfold fixNamesRewrite
    rw [colonRep_colonSpaceRep]
  · intro destDir ext p rec h1 h2 h3 h4
    have ht : ':' ∉ (movieTitleOf rec p.rawTitle).toList :=
      movieSanitizeTitle_no_colon _
    have hopt : ':' ∉ (if p.descriptors = "" then "" else " - " ++ p.descriptors).toList := by
      by_cases hd : p.descriptors = ""
      · simp [hd]
      · simp only [hd, if_false]
        exact no_colon_append (by decide) h3
    unfold movieDestFile movieFolder
    repeat' apply no_colon_append
    all_goals first
      | exact h1
      | exact h2
      | exact h4
      | exact ht
      | exact hopt
      | decide

/-- Closed witness for the hypothesis-bearing part of the C7 theorem. -/
theorem claim7_colon_sanitization_witness :
    ':' ∉ (movieDestFile "/media/movies" ".mkv"
      ⟨"Avatar The Way of Water", some "2022", "1080P"⟩
      ⟨"Avatar: The Way of Water", some "2022-12-14"⟩).toList :=
  claim7_colon_sanitization.2.2.2 "/media/movies" ".mkv"
    ⟨"Avatar The Way of Water", some "2022", "1080P"⟩
    ⟨"Avatar: The Way of Water", some "2022-12-14"⟩
    (by decide) (by decide) (by decide) (by decide)

/-! ## C8: negative resolver results are never cached -/

theorem fetchMovie_none_state (fuel : Nat) (env : MovieEnv) (q : String)
    (y : Option String) (st : MetaSt)
    (h : (fetchMovie fuel env q y st).1 = none) :
    (fetchMovie fuel env q y st).2.1 = st := by
  induction fuel generalizing q with
  | zero => rfl
  | succ k ih =>
    rw [fetchMovie] at h ⊢
    cases halo : alookup (mkMovieKey q y) st.cache with
    | some r => simp [halo] at h
    | none =>
      simp only [halo] at h ⊢
      cases htm : env.tmdb q y with
      | cons r rs => simp [htm] at h
      | nil =>
        simp only [htm] at h ⊢
        cases hom : env.omdb q y with
        | some t =>
          simp only [hom] at h ⊢
          exact ih t h
        | none => simp [hom]

theorem fetchMovie_none_calls (fuel : Nat) (env : MovieEnv) (q : String)
    (y : Option String) (st : MetaSt)
    (h : (fetchMovie (fuel + 1) env q y st).1 = none) :
    1 ≤ (fetchMovie (fuel + 1) env q y st).2.2 := by
  rw [fetchMovie] at h ⊢
  cases halo : alookup (mkMovieKey q y) st.cache with
  | some r => simp [halo] at h
  | none =>
    simp only [halo] at h ⊢
    cases htm : env.tmdb q y with
    | cons r rs => simp [htm] at h
    | nil =>
      simp only [htm] at h ⊢
      cases hom : env.omdb q y with
      | some t => simp [hom]
      | none => simp [hom]

theorem fetchSeriesWithFallback_calls (env : SeriesEnv) (q : String) :
    1 ≤ (fetchSeriesWithFallback env q).2 := by
  unfold fetchSeriesWithFallback
  simp only []
  split
  · simp
  · split
    · simp
    · simp

/-- C8: a NotFound resolution is never cached, in either cited resolver.
    Movies variant: when both providers miss, fetchMovie returns none and
    leaves the metadata cache exactly unchanged in memory and on disk, so an
    identical later resolution runs against the same state and issues at
    least one network request again.  Series variant: on a miss, the
    resolution step of lines 263-272 likewise returns with the state exactly
    unchanged after at least one network request, and a repeat identical
    resolution issues the requests again. -/
theorem claim8_notfound_not_cached :
    (∀ (fuel : Nat) (env : MovieEnv) (q : String) (y : Option String)
       (st st' : MetaSt) (n : Nat),
      fetchMovie (fuel + 1) env q y st = (none, st', n) →
      st' = st ∧ 1 ≤ n ∧ fetchMovie (fuel + 1) env q y st' = (none, st', n)) ∧
    (∀ (env : SeriesEnv) (t : String) (st st' : SSt) (n : Nat),
      seriesResolve env t st = (none, st', n) →
      st' = st ∧ 1 ≤ n ∧ seriesResolve env t st' = (none, st', n)) := by
  constructor
  · intro fuel env q y st st' n h
    have h1 : (fetchMovie (fuel + 1) env q y st).1 = none := by rw [h]
    have hst : st' = st := by
      have := fetchMovie_none_state (fuel + 1) env q y st h1
      rw [h] at this
      simpa using this
    have hn : 1 ≤ n := by
      have := fetchMovie_none_calls fuel env q y st h1
      rw [h] at this
      exact this
    exact ⟨hst, hn, by rw [hst, h, hst]⟩
  · intro env t st st' n h
    rw [seriesResolve] at h
    cases halo : alookup (seriesCacheKey t) st.tmdbMem with
    | some r => rw [halo] at h; simp at h
    | none =>
      rw [halo] at h
      simp only [] at h
      cases hout : (fetchSeriesWithFallback env t).1 with
      | some r => rw [hout] at h; simp at h
      | none =>
        rw [hout] at h
        simp only [Prod.mk.injEq, true_and] at h
        obtain ⟨hst, hn⟩ := h
        subst hst
        refine ⟨rfl, ?_, ?_⟩
        · rw [← hn]
          exact fetchSeriesWithFallback_calls env t
        · rw [seriesResolve, halo]
          simp only []
          rw [hout, hn]

/-! ## C2: resolver cache key and cache-hit behaviour -/

def duneRec : MovieRec := ⟨"Dune: Part One", some "2021-09-15"⟩

/-- A provider environment in which the primary misses the release title, the
    secondary answers with a differently spelled canonical title, and the
    primary then hits on that canonical title. -/
def c2Env : MovieEnv :=
  { tmdb := fun q _ => if q = "Dune: Part One" then [duneRec] else []
    omdb := fun q _ => if q = "Dune Part One" then some "Dune: Part One" else none }

/-- C2 counterexample: the first resolution of the movies variant succeeds
    through the secondary-provider fallback, yet a second resolution with
    identical arguments issues three further network calls, not zero; and the
    series variant computes its cache key as the lowercased title alone, not
    lowercase(title) plus a separator and the year. -/
theorem claim2_counterexample :
    (fetchMovie 2 c2Env "Dune Part One" (some "2021") ⟨[], []⟩).1 = some duneRec ∧
    (fetchMovie 2 c2Env "Dune Part One" (some "2021")
        (fetchMovie 2 c2Env "Dune Part One" (some "2021") ⟨[], []⟩).2.1).2.2 = 2 ∧
    ¬ (fetchMovie 2 c2Env "Dune Part One" (some "2021")
        (fetchMovie 2 c2Env "Dune Part One" (some "2021") ⟨[], []⟩).2.1).2.2 = 0 ∧
    seriesCacheKey "Dune" ≠ lowStr "Dune" ++ "|" ++ "2021" := by
  decide

/-- C2 as amended: in the movies resolver the cache key is
    lowercase(title), a separator bar, then the year hint or empty; a key
    already in the cache returns the cached record immediately with no
    network call and no state change; a repeat resolution makes zero network
    calls whenever the primary provider answers the queried title directly;
    and the series variant resolution step returns immediately with zero
    network calls when its key, the lowercased title alone, is cached. -/
theorem claim2_cache_key_and_hit :
    (∀ (fuel : Nat) (env : MovieEnv) (q : String) (y : Option String)
       (st : MetaSt) (r : MovieRec),
      alookup (lowStr q ++ "|" ++ y.getD "") st.cache = some r →
      fetchMovie (fuel + 1) env q y st = (some r, st, 0)) ∧
    (∀ (fuel fuel' : Nat) (env : MovieEnv) (q : String) (y : Option String)
       (st : MetaSt) (x : MovieRec) (xs : List MovieRec),
      env.tmdb q y = x :: xs →
      fetchMovie (fuel' + 1) env q y (fetchMovie (fuel + 1) env q y st).2.1 =
        ((fetchMovie (fuel + 1) env q y st).1,
         (fetchMovie (fuel + 1) env q y st).2.1, 0)) ∧
    (∀ (env : SeriesEnv) (t : String) (st : SSt) (r : ShowRec),
      alookup (seriesCacheKey t) st.tmdbMem = some r →
      seriesResolve env t st = (some r, st, 0)) := by
  refine ⟨?_, ?_, ?_⟩
  · intro fuel env q y st r h
    rw [fetchMovie]
    have hk : mkMovieKey q y = lowStr q ++ "|" ++ y.getD "" := rfl
    rw [hk, h]
  · intro fuel fuel' env q y st x xs htm
    cases halo : alookup (mkMovieKey q y) st.cache with
    | some r =>
      have hfirst : fetchMovie (fuel + 1) env q y st = (some r, st, 0) := by
        rw [fetchMovie, halo]
      rw [hfirst]
      rw [fetchMovie, halo]
    | none =>
      have hfirst : fetchMovie (fuel + 1) env q y st =
          (some ((List.find? (fun z => rdMatches z y) (x :: xs)).getD x),
           ⟨(mkMovieKey q y, (List.find? (fun z => rdMatches z y) (x :: xs)).getD x) :: st.cache,
            (mkMovieKey q y, (List.find? (fun z => rdMatches z y) (x :: xs)).getD x) :: st.cache⟩,
           1) := by
        rw [fetchMovie, halo, htm]
      rw [hfirst]
      rw [fetchMovie]
      simp [alookup]
  · intro env t st r h
    rw [seriesResolve, h]

/-- Closed witness for the C2 amended theorem, applying all three parts at
    concrete inputs. -/
theorem claim2_cache_key_and_hit_witness :
    fetchMovie 1 c2Env "Dune: Part One" (some "2021")
        ⟨[("dune: part one|2021", duneRec)], [("dune: part one|2021", duneRec)]⟩ =
      (some duneRec,
       ⟨[("dune: part one|2021", duneRec)], [("dune: part one|2021", duneRec)]⟩, 0) ∧
    fetchMovie 1 c2Env "Dune: Part One" (some "2021")
        (fetchMovie 1 c2Env "Dune: Part One" (some "2021") ⟨[], []⟩).2.1 =
      ((fetchMovie 1 c2Env "Dune: Part One" (some "2021") ⟨[], []⟩).1,
       (fetchMovie 1 c2Env "Dune: Part One" (some "2021") ⟨[], []⟩).2.1, 0) ∧
    seriesResolve { tmdbTv := fun _ _ => [], omdbT := fun _ => none } "Dune"
        ⟨[("dune", ⟨"Dune", some "2021-11-01"⟩)], [], [], [], []⟩ =
      (some ⟨"Dune", some "2021-11-01"⟩,
       ⟨[("dune", ⟨"Dune", some "2021-11-01"⟩)], [], [], [], []⟩, 0) :=
  ⟨claim2_cache_key_and_hit.1 0 c2Env "Dune: Part One" (some "2021") _ duneRec
      (by decide),
   claim2_cache_key_and_hit.2.1 0 0 c2Env "Dune: Part One" (some "2021")
      ⟨[], []⟩ duneRec [] (by decide),
   claim2_cache_key_and_hit.2.2 { tmdbTv := fun _ _ => [], omdbT := fun _ => none }
      "Dune" ⟨[("dune", ⟨"Dune", some "2021-11-01"⟩)], [], [], [], []⟩
      ⟨"Dune", some "2021-11-01"⟩ (by decide)⟩

/-! ## C9: flush timing of the persisted caches -/

def noFail : FsEnv := ⟨fun _ => false, fun _ => false⟩

theorem noFail_reliable : noFail.reliable := fun _ => ⟨rfl, rfl⟩

theorem fetchMovie_sync (fuel : Nat) (env : MovieEnv) (q : String)
    (y : Option String) (st : MetaSt) (h : st.persisted = st.cache) :
    (fetchMovie fuel env q y st).2.1.persisted =
      (fetchMovie fuel env q y st).2.1.cache := by
  induction fuel generalizing q with
  | zero => exact h
  | succ k ih =>
    rw [fetchMovie]
    cases halo : alookup (mkMovieKey q y) st.cache with
    | some r => simpa using h
    | none =>
      simp only [halo]
      cases htm : env.tmdb q y with
      | cons r rs => rfl
      | nil =>
        cases hom : env.omdb q y with
        | some t => simpa using ih t
        | none => simpa using h

theorem movieMatLink_sync (f d : String) (dry : Bool) (env : FsEnv) (st st1 : LSt)
    (a e : Nat) (h : movieMatLink f d dry env st = .ok (st1, a, e))
    (hs : st.persistedLink = st.linkCache) :
    st1.persistedLink = st1.linkCache := by
  unfold movieMatLink at h
  split_ifs at h <;>
    simp only [Except.ok.injEq, Prod.mk.injEq] at h <;>
    obtain ⟨h1, -, -⟩ := h <;> subst h1 <;> simp [hs]

theorem createSymlinkMat_sync (fileName ext destDir : String) (p : ParsedMovie)
    (movie : Option MovieRec) (dry : Bool) (env : FsEnv) (st st1 : LSt) (a e : Nat)
    (h : createSymlinkMat fileName ext destDir p movie dry env st = .ok (st1, a, e))
    (hs : st.persistedLink = st.linkCache) :
    st1.persistedLink = st1.linkCache := by
  unfold createSymlinkMat at h
  split_ifs at h with h1 h2
  · simp only [Except.ok.injEq, Prod.mk.injEq] at h
    obtain ⟨h1', -, -⟩ := h
    subst h1'
    exact hs
  · simp only [Except.ok.injEq, Prod.mk.injEq] at h
    obtain ⟨h1', -, -⟩ := h
    subst h1'
    exact hs
  · cases movie with
    | none =>
      simp only [Except.ok.injEq, Prod.mk.injEq] at h
      obtain ⟨h1', -, -⟩ := h
      subst h1'
      exact hs
    | some rec =>
      simp only at h
      split_ifs at h with h3 h4
      · exact movieMatLink_sync _ _ _ _ _ _ _ _ h hs
      · exact movieMatLink_sync _ _ _ _ _ _ _ _ h hs

theorem gLoop_persisted (fileName folder : String) (mkDest : String → String)
    (dry : Bool) (env : FsEnv) (eps : List String) (st : GSt) :
    (gLoop fileName folder mkDest dry env eps st).1.persistedLink =
      st.persistedLink := by
  induction eps generalizing st with
  | nil => rfl
  | cons ep rest ih =>
    rw [gLoop]
    split_ifs <;> simp [ih]

theorem geminiMat_persisted (fileName ext destDir : String)
    (parsed : Option GParsed) (showR : Option ShowRec) (dry : Bool) (env : FsEnv)
    (st : GSt) :
    (geminiMat fileName ext destDir parsed showR dry env st).1.persistedLink =
      st.persistedLink := by
  unfold geminiMat
  split_ifs
  · rfl
  · cases parsed with
    | none => rfl
    | some p =>
      simp only
      split_ifs
      · rfl
      · cases showR with
        | none => rfl
        | some r => exact gLoop_persisted _ _ _ _ _ _ _

/-- C9 as amended: the movies variant flushes synchronously - the metadata
    resolver leaves the in-memory cache and the persisted file in agreement,
    and so does the movies materializer for the link cache; the gemini
    variant instead never persists during processFile (its link cache is
    written once at the end of the run), so a crash mid-batch loses every
    link-cache entry of the run, not just the in-flight file. -/
theorem claim9_flush_timing :
    (∀ (fuel : Nat) (env : MovieEnv) (q : String) (y : Option String)
       (st : MetaSt), st.persisted = st.cache →
      (fetchMovie fuel env q y st).2.1.persisted =
        (fetchMovie fuel env q y st).2.1.cache) ∧
    (∀ (fileName ext destDir : String) (p : ParsedMovie)
       (movie : Option MovieRec) (dry : Bool) (env : FsEnv) (st st1 : LSt)
       (a e : Nat),
      createSymlinkMat fileName ext destDir p movie dry env st = .ok (st1, a, e) →
      st.persistedLink = st.linkCache → st1.persistedLink = st1.linkCache) ∧
    (∀ (fileName ext destDir : String) (parsed : Option GParsed)
       (showR : Option ShowRec) (dry : Bool) (env : FsEnv) (st : GSt),
      (geminiMat fileName ext destDir parsed showR dry env st).1.persistedLink =
        st.persistedLink) :=
  ⟨fetchMovie_sync, createSymlinkMat_sync, geminiMat_persisted⟩

/-- C9 counterexample: a successful gemini symlink creation returns with the
    new entry in the in-memory link cache but nothing on disk, refuting the
    claim that every successful cache write is flushed before the operation
    returns. -/
theorem claim9_counterexample :
    (geminiMat "Show.S01E01.mkv" ".mkv" "/dest" (some ⟨"Show", "01", ["01"]⟩)
        (some ⟨"Show", some "2020-05-05"⟩) false noFail ⟨[], [], [], []⟩).1.symlinkCache =
      [("Show.S01E01.mkv", "/dest/Show (2020)/Season 1/Show - S01E01.mkv")] ∧
    (geminiMat "Show.S01E01.mkv" ".mkv" "/dest" (some ⟨"Show", "01", ["01"]⟩)
        (some ⟨"Show", some "2020-05-05"⟩) false noFail ⟨[], [], [], []⟩).1.persistedLink =
      [] := by
  decide

/-- Closed witness for the C9 amended theorem. -/
theorem claim9_flush_timing_witness :
    (fetchMovie 1 c2Env "Dune: Part One" (some "2021") ⟨[], []⟩).2.1.persisted =
      (fetchMovie 1 c2Env "Dune: Part One" (some "2021") ⟨[], []⟩).2.1.cache ∧
    (⟨[("A.mkv", "/d/x")], [("A.mkv", "/d/x")], [], ["/d/x"]⟩ : LSt).persistedLink =
      (⟨[("A.mkv", "/d/x")], [("A.mkv", "/d/x")], [], ["/d/x"]⟩ : LSt).linkCache ∧
    (geminiMat "A.mkv" ".mkv" "/d" none none false noFail
        ⟨[], [], [], []⟩).1.persistedLink = ([] : List (String × String)) := by
  refine ⟨claim9_flush_timing.1 1 c2Env "Dune: Part One" (some "2021") ⟨[], []⟩ rfl,
    ?_, claim9_flush_timing.2.2 "A.mkv" ".mkv" "/d" none none false noFail ⟨[], [], [], []⟩⟩
  exact claim9_flush_timing.2.1 "A.mkv" ".mkv" "/d" ⟨"Av", some "2009", ""⟩
    (some ⟨"Avatar", some "2009-12-18"⟩) false noFail
    ⟨[("A.mkv", "/d/x")], [("A.mkv", "/d/x")], [], ["/d/x"]⟩
    ⟨[("A.mkv", "/d/x")], [("A.mkv", "/d/x")], [], ["/d/x"]⟩ 0 0 (by rfl) rfl

/-! ## C3: dry-run behaviour -/

theorem movieMatLink_dry (f d : String) (env : FsEnv) (st : LSt) :
    movieMatLink f d true env st = .ok (st, 0, 0) := by
  unfold movieMatLink
  split_ifs <;> simp_all

theorem gLoop_dry (fileName folder : String) (mkDest : String → String)
    (env : FsEnv) (eps : List String) (st : GSt) :
    gLoop fileName folder mkDest true env eps st = (st, 0, 0) := by
  induction eps with
  | nil => rfl
  | cons ep rest ih => simp [gLoop, ih]

/-- C3 as amended: in dry-run mode the movies materializer makes no symlink
    attempt, raises no error, changes no file, and writes neither link-cache
    copy, but it still creates the destination directory (ensureDir runs
    before the dry-run branch); the gemini variant performs no mutation of
    any kind in dry-run mode. -/
theorem claim3_dry_run :
    (∀ (fileName ext destDir : String) (p : ParsedMovie)
       (movie : Option MovieRec) (env : FsEnv) (st st1 : LSt) (a e : Nat),
      createSymlinkMat fileName ext destDir p movie true env st = .ok (st1, a, e) →
      st1.files = st.files ∧ st1.linkCache = st.linkCache ∧
        st1.persistedLink = st.persistedLink ∧ a = 0 ∧ e = 0 ∧
        (st1.dirs = st.dirs ∨
          ∃ rec, movie = some rec ∧ st1.dirs = movieFolder destDir p rec :: st.dirs)) ∧
    (∀ (fileName ext destDir : String) (parsed : Option GParsed)
       (showR : Option ShowRec) (env : FsEnv) (st : GSt),
      geminiMat fileName ext destDir parsed showR true env st = (st, 0, 0)) := by
  constructor
  · intro fileName ext destDir p movie env st st1 a e h
    unfold createSymlinkMat at h
    split_ifs at h with h1 h2
    · simp only [Except.ok.injEq, Prod.mk.injEq] at h
      obtain ⟨rfl, ha, he⟩ := h
      subst ha; subst he
      simp
    · simp only [Except.ok.injEq, Prod.mk.injEq] at h
      obtain ⟨rfl, ha, he⟩ := h
      subst ha; subst he
      simp
    · cases movie with
      | none =>
        simp only [Except.ok.injEq, Prod.mk.injEq] at h
        obtain ⟨rfl, ha, he⟩ := h
        subst ha; subst he
        simp
      | some rec =>
        simp only at h
        split_ifs at h with h3 h4
        · rw [movieMatLink_dry] at h
          simp only [Except.ok.injEq, Prod.mk.injEq] at h
          obtain ⟨rfl, ha, he⟩ := h
          subst ha; subst he
          simp
        · rw [movieMatLink_dry] at h
          simp only [Except.ok.injEq, Prod.mk.injEq] at h
          obtain ⟨hst, ha, he⟩ := h
          subst ha; subst he
          refine ⟨by rw [← hst], by rw [← hst], by rw [← hst], rfl, rfl,
            .inr ⟨rec, rfl, by rw [← hst]⟩⟩
  · intro fileName ext destDir parsed showR env st
    unfold geminiMat
    split_ifs
    · rfl
    · cases parsed with
      | none => rfl
      | some p =>
        simp only
        split_ifs
        · rfl
        · cases showR with
          | none => rfl
          | some r => exact gLoop_dry _ _ _ _ _ _

/-- C3 counterexample: a movies dry run still mutates the filesystem - the
    destination directory is created before the dry-run branch is reached. -/
theorem claim3_counterexample :
    createSymlinkMat "Avatar.2009.mkv" ".mkv" "/d" ⟨"Avatar", some "2009", ""⟩
        (some ⟨"Avatar", some "2009-12-18"⟩) true noFail ⟨[], [], [], []⟩ =
      .ok (⟨[], [], ["/d/Avatar (2009)"], []⟩, 0, 0) ∧
    (["/d/Avatar (2009)"] : List String) ≠ [] :=
  ⟨by rfl, by decide⟩

/-- Closed witness for the C3 amended theorem. -/
theorem claim3_dry_run_witness :
    ((⟨[], [], ["/d/Avatar (2009)"], []⟩ : LSt).files = ([] : List String) ∧
      (⟨[], [], ["/d/Avatar (2009)"], []⟩ : LSt).linkCache = ([] : List (String × String)) ∧
      (⟨[], [], ["/d/Avatar (2009)"], []⟩ : LSt).persistedLink = ([] : List (String × String)) ∧
      (0 : Nat) = 0 ∧ (0 : Nat) = 0 ∧
      ((⟨[], [], ["/d/Avatar (2009)"], []⟩ : LSt).dirs = ([] : List String) ∨
        ∃ rec, (some ⟨"Avatar", some "2009-12-18"⟩ : Option MovieRec) = some rec ∧
          (⟨[], [], ["/d/Avatar (2009)"], []⟩ : LSt).dirs =
            movieFolder "/d" ⟨"Avatar", some "2009", ""⟩ rec :: ([] : List String))) ∧
    geminiMat "A.mkv" ".mkv" "/d" none none true noFail ⟨[], [], [], []⟩ =
      (⟨[], [], [], []⟩, 0, 0) :=
  ⟨claim3_dry_run.1 "Avatar.2009.mkv" ".mkv" "/d" ⟨"Avatar", some "2009", ""⟩
      (some ⟨"Avatar", some "2009-12-18"⟩) noFail ⟨[], [], [], []⟩
      ⟨[], [], ["/d/Avatar (2009)"], []⟩ 0 0 (by rfl),
   claim3_dry_run.2 "A.mkv" ".mkv" "/d" none none noFail ⟨[], [], [], []⟩⟩

/-! ## C4: per-file failure scoping in the batch -/

theorem movieMatLink_isOk (f d : String) (dry : Bool) (env : FsEnv) (st : LSt) :
    ∃ out, movieMatLink f d dry env st = .ok out := by
  unfold movieMatLink
  split_ifs <;> exact ⟨_, rfl⟩

theorem createSymlinkMat_ok_of_noDirFail (fileName ext destDir : String)
    (p : ParsedMovie) (movie : Option MovieRec) (dry : Bool) (env : FsEnv)
    (st : LSt) (h : ∀ q, env.dirFail q = false) :
    ∃ out, createSymlinkMat fileName ext destDir p movie dry env st = .ok out := by
  unfold createSymlinkMat
  split_ifs with h1 h2
  · exact ⟨_, rfl⟩
  · exact ⟨_, rfl⟩
  · cases movie with
    | none => exact ⟨_, rfl⟩
    | some rec =>
      simp only
      split_ifs with h3 h4
      · exact movieMatLink_isOk _ _ _ _ _
      · rw [h (movieFolder destDir p rec)] at h4
        simp at h4
      · exact movieMatLink_isOk _ _ _ _ _

theorem runBatchMovies_noDirFail (destDir : String) (dry : Bool) (env : FsEnv)
    (items : List MovieItem) (st : LSt) (h : ∀ q, env.dirFail q = false) :
    (runBatchMovies destDir dry env items st).1.isSome ∧
    (runBatchMovies destDir dry env items st).2 = items.map (·.fileName) := by
  induction items generalizing st with
  | nil => exact ⟨rfl, rfl⟩
  | cons it rest ih =>
    rw [runBatchMovies]
    obtain ⟨out, hout⟩ :=
      createSymlinkMat_ok_of_noDirFail it.fileName it.ext destDir it.parsed
        it.movie dry env st h
    obtain ⟨st', a, e⟩ := out
    rw [hout]
    simp only [List.map_cons]
    exact ⟨(ih st').1, by rw [(ih st').2]⟩

theorem runBatchAnime_processes_all (destDir : String) (dry : Bool)
    (env : AnimeEnv) (fenv : FsEnv) (files : List String) (st : ASt) :
    (runBatchAnime destDir dry env fenv files st).2 = files := by
  induction files generalizing st with
  | nil => rfl
  | cons f rest ih =>
    rw [runBatchAnime]
    cases h : createSymlinkA f destDir dry env fenv st with
    | ok s => simp [h, ih]
    | error u => simp [h, ih]

/-- C4 as amended: symlink-creation failures are caught per file, so with no
    directory-creation failure the movies batch completes and starts every
    file; and the anime main loop wraps each file in its own catch, so it
    starts every file whatever the failures.  A directory-creation failure in
    the movies variant, however, aborts the batch (see the counterexample). -/
theorem claim4_per_file_failure :
    (∀ (destDir : String) (dry : Bool) (env : FsEnv) (items : List MovieItem)
       (st : LSt), (∀ q, env.dirFail q = false) →
      (runBatchMovies destDir dry env items st).1.isSome ∧
      (runBatchMovies destDir dry env items st).2 = items.map (·.fileName)) ∧
    (∀ (destDir : String) (dry : Bool) (env : AnimeEnv) (fenv : FsEnv)
       (files : List String) (st : ASt),
      (runBatchAnime destDir dry env fenv files st).2 = files) :=
  ⟨runBatchMovies_noDirFail, fun d dr e f fs st => runBatchAnime_processes_all d dr e f fs st⟩

def allDirFail : FsEnv := ⟨fun _ => true, fun _ => false⟩

/-- C4 counterexample: a directory-creation failure on the first movies file
    aborts the whole batch - the run returns no final state and the second
    file is never started, refuting that a per-file filesystem failure only
    skips that file. -/
theorem claim4_counterexample :
    runBatchMovies "/d" false allDirFail
        [⟨"Avatar.2009.mkv", ".mkv", ⟨"Avatar", some "2009", ""⟩,
          some ⟨"Avatar", some "2009-12-18"⟩⟩,
         ⟨"Dune.2021.mkv", ".mkv", ⟨"Dune", some "2021", ""⟩,
          some ⟨"Dune", some "2021-09-15"⟩⟩]
        ⟨[], [], [], []⟩ =
      (none, ["Avatar.2009.mkv"]) ∧
    "Dune.2021.mkv" ∉ ["Avatar.2009.mkv"] := by
  exact ⟨by rfl, by decide⟩

/-- Closed witness for the C4 amended theorem. -/
theorem claim4_per_file_failure_witness :
    ((runBatchMovies "/d" false noFail
        [⟨"Avatar.2009.mkv", ".mkv", ⟨"Avatar", some "2009", ""⟩,
          some ⟨"Avatar", some "2009-12-18"⟩⟩]
        ⟨[], [], [], []⟩).1.isSome ∧
      (runBatchMovies "/d" false noFail
        [⟨"Avatar.2009.mkv", ".mkv", ⟨"Avatar", some "2009", ""⟩,
          some ⟨"Avatar", some "2009-12-18"⟩⟩]
        ⟨[], [], [], []⟩).2 =
        ([⟨"Avatar.2009.mkv", ".mkv", ⟨"Avatar", some "2009", ""⟩,
           some ⟨"Avatar", some "2009-12-18"⟩⟩] : List MovieItem).map (·.fileName)) ∧
    (runBatchAnime "/d" false ⟨fun _ _ => []⟩ allDirFail
        ["/s/Great Show/Great Show 067.mkv", "/s/Foo/Foo 500.mkv"]
        ⟨[], []⟩).2 =
      ["/s/Great Show/Great Show 067.mkv", "/s/Foo/Foo 500.mkv"] :=
  ⟨claim4_per_file_failure.1 "/d" false noFail
      [⟨"Avatar.2009.mkv", ".mkv", ⟨"Avatar", some "2009", ""⟩,
        some ⟨"Avatar", some "2009-12-18"⟩⟩] ⟨[], [], [], []⟩
      (fun _ => rfl),
   claim4_per_file_failure.2 "/d" false ⟨fun _ _ => []⟩ allDirFail
      ["/s/Great Show/Great Show 067.mkv", "/s/Foo/Foo 500.mkv"] ⟨[], []⟩⟩

/-! ## C6: episode range expansion -/

/-- C6 as amended: on every episodic filename whose matched groups carry an
    explicit end episode, the series variant expands to the ascending range
    exactly when end exceeds start within a span of twenty and otherwise
    keeps the single start episode, while the gemini variant expands the
    range unconditionally - any span, and the empty list when the end lies
    before the start. -/
theorem claim6_range_expansion :
    (∀ (name : String) (idx : Nat) (g : SEG) (e : Nat),
      seriesScan (replChars ['.', '_'] ' ' (stripExtL name.toList)) = some (idx, g) →
      g.stop = some e → g.season ≠ 0 →
      ∃ p, parseFileNameS name = .ok p ∧
        p.episodes =
          (if g.start < e ∧ e - g.start ≤ 20 then List.range' g.start (e + 1 - g.start)
           else [g.start]).map (fun n => padZero 2 (toString n))) ∧
    (∀ (name : String) (idx : Nat) (g : SEG) (e : Nat),
      geminiScan (replChars ['.', '_'] ' ' (stripExtL name.toList)) = some (idx, g) →
      g.stop = some e → g.season ≠ 0 →
      ∃ p, parseFileNameG name = .ok p ∧
        p.episodes =
          (List.range' g.start (e + 1 - g.start)).map (fun n => padZero 2 (toString n))) := by
  constructor
  · intro name idx g e hscan hstop hseason
    unfold parseFileNameS
    simp only []
    rw [hscan]
    simp only []
    rw [if_neg hseason]
    refine ⟨_, rfl, ?_⟩
    simp only []
    unfold seriesEpisodesCore
    rw [hstop]
    simp only []
    rw [pushRange_eq_range']
  · intro name idx g e hscan hstop hseason
    unfold parseFileNameG
    simp only []
    rw [hscan]
    simp only []
    rw [if_neg hseason]
    refine ⟨_, rfl, ?_⟩
    simp only []
    unfold geminiEpisodes
    rw [hstop]
    simp only []
    rw [pushRange_eq_range']

/-- C6 counterexample: the gemini parser expands a span of twenty-four
    (greater than the bound of twenty) to the full range of twenty-five
    episodes instead of the single start episode demanded by the claim. -/
theorem claim6_counterexample :
    parseFileNameG "Show.S01E01-E25.mkv" =
      .ok ⟨"Show", "01",
        ["01", "02", "03", "04", "05", "06", "07", "08", "09", "10", "11",
         "12", "13", "14", "15", "16", "17", "18", "19", "20", "21", "22",
         "23", "24", "25"]⟩ ∧
    (["01", "02", "03", "04", "05", "06", "07", "08", "09", "10", "11",
      "12", "13", "14", "15", "16", "17", "18", "19", "20", "21", "22",
      "23", "24", "25"] : List String) ≠ ["01"] ∧
    20 < 25 - 1 := by
  decide

/-- Closed witness for the C6 amended theorem. -/
theorem claim6_range_expansion_witness :
    (∃ p, parseFileNameS "Show.S01E01-E03.mkv" = .ok p ∧
      p.episodes =
        (if 1 < 3 ∧ 3 - 1 ≤ 20 then List.range' 1 (3 + 1 - 1)
         else [1]).map (fun n => padZero 2 (toString n))) ∧
    (∃ p, parseFileNameG "Show.S01E01-E25.mkv" = .ok p ∧
      p.episodes = (List.range' 1 (25 + 1 - 1)).map (fun n => padZero 2 (toString n))) :=
  ⟨claim6_range_expansion.1 "Show.S01E01-E03.mkv" 5 ⟨1, 1, some 3, none, 10⟩ 3
      (by decide) rfl (by decide),
   claim6_range_expansion.2 "Show.S01E01-E25.mkv" 5 ⟨1, 1, some 25, none, 10⟩ 25
      (by decide) rfl (by decide)⟩

/-! ## C10: the anime filename parser -/

theorem scanFirst_least {α : Type} (tryf : Option Char → List Char → Option α)
    (hp : ∀ p q cs, tryf p cs = tryf q cs) :
    ∀ (cs : List Char) (prev : Option Char) (i k : Nat) (a : α),
      scanFirst tryf prev i cs = some (k, a) →
      i ≤ k ∧ tryf none (cs.drop (k - i)) = some a ∧
        ∀ j, j < k - i → tryf none (cs.drop j) = none := by
  intro cs
  induction cs with
  | nil =>
    intro prev i k a h
    simp [scanFirst] at h
  | cons c rest ih =>
    intro prev i k a h
    rw [scanFirst] at h
    cases htry : tryf prev (c :: rest) with
    | some g =>
      rw [htry] at h
      simp only [Option.some.injEq, Prod.mk.injEq] at h
      obtain ⟨rfl, rfl⟩ := h
      refine ⟨Nat.le_refl _, ?_, ?_⟩
      · simp only [Nat.sub_self, List.drop_zero]
        rw [hp none prev]
        exact htry
      · intro j hj
        omega
    | none =>
      rw [htry] at h
      obtain ⟨h1, h2, h3⟩ := ih (some c) (i + 1) k a h
      refine ⟨by omega, ?_, ?_⟩
      · have hk : k - i = (k - (i + 1)) + 1 := by omega
        rw [hk]
        simpa using h2
      · intro j hj
        cases j with
        | zero =>
          simp only [List.drop_zero]
          rw [hp none prev]
          exact htry
        | succ j' =>
          have : j' < k - (i + 1) := by omega
          simpa using h3 j' this

/-- C10 as amended: the anime parser always assigns season 01; its title is a
    function of the parent folder alone; and the single episode is taken
    from the earliest window of three consecutive digits not followed by a
    fourth digit (which may sit inside a longer digit run), rendered
    zero-padded to three digits. -/
theorem claim10_anime_parsing :
    (∀ (fp : String) (p : SParsed), parseAnimeFileName fp = some p →
      p.season = "01") ∧
    (∀ (fp1 fp2 : String) (p1 p2 : SParsed),
      parseAnimeFileName fp1 = some p1 → parseAnimeFileName fp2 = some p2 →
      parentComp fp1.toList = parentComp fp2.toList → p1.rawTitle = p2.rawTitle) ∧
    (∀ (fp : String) (p : SParsed), parseAnimeFileName fp = some p →
      ∃ i m,
        animeWin (replChars ['_', '.'] ' ' (stripExtL (basenameL fp.toList))) =
          some (i, m) ∧
        p.episodes = [padZero 3 (jsNumStr (jsParseInt m.toList))] ∧
        tryWin none
          ((replChars ['_', '.'] ' ' (stripExtL (basenameL fp.toList))).drop i) =
          some m ∧
        (∀ j, j < i →
          tryWin none
            ((replChars ['_', '.'] ' ' (stripExtL (basenameL fp.toList))).drop j) =
            none)) := by
  refine ⟨?_, ?_, ?_⟩
  · intro fp p h
    unfold parseAnimeFileName at h
    simp only [] at h
    cases hw : animeWin (replChars ['_', '.'] ' ' (stripExtL (basenameL fp.toList))) with
    | none => rw [hw] at h; exact absurd h (by simp)
    | some im =>
      rw [hw] at h
      obtain ⟨i, m⟩ := im
      simp only [Option.some.injEq] at h
      rw [← h]
  · intro fp1 fp2 p1 p2 h1 h2 hfold
    unfold parseAnimeFileName at h1 h2
    simp only [] at h1 h2
    cases hw1 : animeWin (replChars ['_', '.'] ' ' (stripExtL (basenameL fp1.toList))) with
    | none => rw [hw1] at h1; exact absurd h1 (by simp)
    | some im1 =>
      cases hw2 : animeWin (replChars ['_', '.'] ' ' (stripExtL (basenameL fp2.toList))) with
      | none => rw [hw2] at h2; exact absurd h2 (by simp)
      | some im2 =>
        rw [hw1] at h1
        rw [hw2] at h2
        obtain ⟨i1, m1⟩ := im1
        obtain ⟨i2, m2⟩ := im2
        simp only [Option.some.injEq] at h1 h2
        rw [← h1, ← h2]
        simp only
        rw [hfold]
  · intro fp p h
    unfold parseAnimeFileName at h
    simp only [] at h
    cases hw : animeWin (replChars ['_', '.'] ' ' (stripExtL (basenameL fp.toList))) with
    | none => rw [hw] at h; exact absurd h (by simp)
    | some im =>
      rw [hw] at h
      obtain ⟨i, m⟩ := im
      simp only [Option.some.injEq] at h
      have hleast := scanFirst_least tryWin (fun _ _ _ => rfl) _ none 0 i m hw
      refine ⟨i, m, rfl, ?_, ?_, ?_⟩
      · rw [← h]
      · simpa using hleast.2.1
      · intro j hj
        exact hleast.2.2 j (by omega)

/-- Modelled from the claim's wording for comparison: the first three-digit
    number of a string, reading numbers as maximal runs of consecutive
    digits and selecting the first run of length exactly three. -/
def digitRunsF : Nat → List Char → List (List Char)
  | 0, _ => []
  | _ + 1, [] => []
  | fuel + 1, c :: rest =>
    if isDigitC c then
      (c :: rest.takeWhile (fun d => isDigitC d)) ::
        digitRunsF fuel (rest.dropWhile (fun d => isDigitC d))
    else digitRunsF fuel rest

/-- Modelled from the claim's wording: the first three-digit number in the
    text, or none. -/
def specFirstThreeDigitNumber (cs : List Char) : Option String :=
  ((digitRunsF cs.length cs).find? (fun r => r.length = 3)).map String.mk

/-- C10 counterexample: in a filename whose first digit runs are 1234 and
    500, the first three-digit number is 500 (and the first three
    consecutive digits are 123), yet the parser takes 234, the tail window
    of the four-digit run. -/
theorem claim10_counterexample :
    parseAnimeFileName "/src/Foo/Foo 1234 500.mkv" =
      some ⟨"Foo", "01", ["234"], ""⟩ ∧
    specFirstThreeDigitNumber ("Foo 1234 500").toList = some "500" ∧
    ("234" : String) ≠ "500" ∧ ("234" : String) ≠ "123" := by
  decide

/-- Closed witness for the C10 amended theorem. -/
theorem claim10_anime_parsing_witness :
    ("01" : String) = "01" ∧ ("Foo" : String) = "Foo" ∧
    (∃ i m,
      animeWin (replChars ['_', '.'] ' '
        (stripExtL (basenameL ("/src/Foo/Foo 1234 500.mkv" : String).toList))) =
        some (i, m) ∧
      (⟨"Foo", "01", ["234"], ""⟩ : SParsed).episodes =
        [padZero 3 (jsNumStr (jsParseInt m.toList))] ∧
      tryWin none
        ((replChars ['_', '.'] ' '
          (stripExtL (basenameL ("/src/Foo/Foo 1234 500.mkv" : String).toList))).drop i) =
        some m ∧
      (∀ j, j < i →
        tryWin none
          ((replChars ['_', '.'] ' '
            (stripExtL (basenameL ("/src/Foo/Foo 1234 500.mkv" : String).toList))).drop j) =
          none)) :=
  ⟨claim10_anime_parsing.1 "/src/Foo/Foo 1234 500.mkv" ⟨"Foo", "01", ["234"], ""⟩
      (by decide),
   claim10_anime_parsing.2.1 "/src/Foo/Foo 1234 500.mkv" "/src/Foo/Bar 900.mkv"
      ⟨"Foo", "01", ["234"], ""⟩ ⟨"Foo", "01", ["900"], ""⟩
      (by decide) (by decide) (by decide),
   claim10_anime_parsing.2.2 "/src/Foo/Foo 1234 500.mkv" ⟨"Foo", "01", ["234"], ""⟩
      (by decide)⟩

/-! ## C5: season-zero handling -/

def c5Env : SeriesEnv :=
  { tmdbTv := fun q _ => if q = "Show" then [⟨"Show", some "2020-01-01"⟩] else []
    omdbT := fun _ => none }

/-- C5: both series parsers do reject a season-zero filename, but in
    emgo-series.js the caller fallback then reprocesses the very same file -
    the folder title is resolved (metadata-cache effect) and a symlink is
    created under a Season NaN folder (filesystem effect), because the
    combined fallback regex matches the empty string and its consulted
    groups are undefined.  This theorem evaluates the embedded code at the
    failing input. -/
theorem claim5_season_zero_effects :
    parseFileNameS "Show.S00E01.mkv" = .skippedSpecial ∧
    parseFileNameG "Show.S00E01.mkv" = .skippedSpecial ∧
    seriesCreateSymlink "/src/Show/Show.S00E01.mkv" "/dest" false c5Env noFail
        ⟨[], [], [], [], []⟩ =
      .ok ⟨[("show", ⟨"Show", some "2020-01-01"⟩)],
           [("Show.S00E01.mkv", "/dest/Show (2020)/Season NaN/Show SNaNENaN.mkv")],
           [("Show.S00E01.mkv", "/dest/Show (2020)/Season NaN/Show SNaNENaN.mkv")],
           ["/dest/Show (2020)/Season NaN"],
           ["/dest/Show (2020)/Season NaN/Show SNaNENaN.mkv"]⟩ ∧
    ([("show", (⟨"Show", some "2020-01-01"⟩ : ShowRec))] : List (String × ShowRec)) ≠ [] ∧
    (["/dest/Show (2020)/Season NaN/Show SNaNENaN.mkv"] : List String) ≠ [] :=
  ⟨by decide, by decide, by rfl, by decide, by decide⟩

/-! ## C1: idempotent materialization -/

theorem movieMatLink_skip (f d : String) (dry : Bool) (env : FsEnv) (st : LSt)
    (h : pathExistsL st d = true ∨ dry = true) :
    movieMatLink f d dry env st = .ok (st, 0, 0) := by
  unfold movieMatLink
  by_cases h1 : pathExistsL st d = true
  · rw [if_pos h1]
  · rcases h with h | h
    · exact absurd h h1
    · subst h
      rw [if_neg h1]
      rfl

/-- The state after a successful symlink creation in the movies variant. -/
def linkCreatedSt (f d : String) (st : LSt) : LSt :=
  { st with files := d :: st.files, linkCache := (f, d) :: st.linkCache,
            persistedLink := (f, d) :: st.linkCache }

theorem movieMatLink_reliable_cases (f d : String) (dry : Bool) (env : FsEnv)
    (st st1 : LSt) (a e : Nat) (hrel : env.reliable)
    (h : movieMatLink f d dry env st = .ok (st1, a, e)) :
    (st1 = st ∧ (pathExistsL st d = true ∨ dry = true)) ∨
    (pathExistsL st d = false ∧ dry = false ∧ st1 = linkCreatedSt f d st) := by
  unfold movieMatLink at h
  split_ifs at h with h1 h2 h3
  · simp only [Except.ok.injEq, Prod.mk.injEq] at h
    exact Or.inl ⟨h.1.symm, Or.inl h1⟩
  · simp only [Except.ok.injEq, Prod.mk.injEq] at h
    exact Or.inl ⟨h.1.symm, Or.inr h2⟩
  · rw [(hrel d).2] at h3
    simp at h3
  · simp only [Except.ok.injEq, Prod.mk.injEq] at h
    refine Or.inr ⟨?_, ?_, h.1.symm⟩
    · revert h1
      cases pathExistsL st d <;> simp
    · revert h2
      cases dry <;> simp

/-- C1, movies half: after any completed materialization run, running the
    same (parsed release, provider record) pair again against the resulting
    state returns that state unchanged with zero symlink attempts and zero
    errors. -/
theorem claim1_movies_idempotent (fileName ext destDir : String)
    (p : ParsedMovie) (movie : Option MovieRec) (dry : Bool) (env : FsEnv)
    (st st1 : LSt) (a1 e1 : Nat) (hrel : env.reliable)
    (h : createSymlinkMat fileName ext destDir p movie dry env st = .ok (st1, a1, e1)) :
    createSymlinkMat fileName ext destDir p movie dry env st1 = .ok (st1, 0, 0) := by
  unfold createSymlinkMat at h
  by_cases h1 : movieCacheHit fileName st = true
  · rw [if_pos h1] at h
    simp only [Except.ok.injEq, Prod.mk.injEq] at h
    obtain ⟨hst, -, -⟩ := h
    subst hst
    unfold createSymlinkMat
    rw [if_pos h1]
  · rw [if_neg h1] at h
    by_cases h2 : p.rawTitle.toList.length < 2
    · rw [if_pos h2] at h
      simp only [Except.ok.injEq, Prod.mk.injEq] at h
      obtain ⟨hst, -, -⟩ := h
      subst hst
      unfold createSymlinkMat
      rw [if_neg h1, if_pos h2]
    · rw [if_neg h2] at h
      cases movie with
      | none =>
        simp only [Except.ok.injEq, Prod.mk.injEq] at h
        obtain ⟨hst, -, -⟩ := h
        subst hst
        unfold createSymlinkMat
        rw [if_neg h1, if_neg h2]
      | some rec =>
        simp only [] at h
        by_cases h3 : movieFolder destDir p rec ∈ st.dirs
        · rw [if_pos h3] at h
          rcases movieMatLink_reliable_cases _ _ _ _ _ _ _ _ hrel h with
            ⟨hst, hskip⟩ | ⟨hpe, hdry, hst⟩
          · subst hst
            unfold createSymlinkMat
            rw [if_neg h1, if_neg h2]
            simp only []
            rw [if_pos h3]
            exact movieMatLink_skip _ _ _ _ _ hskip
          · have hc : movieCacheHit fileName st1 = true := by
              subst hst
              simp [movieCacheHit, alookup, pathExistsL, linkCreatedSt]
            unfold createSymlinkMat
            rw [if_pos hc]
        · rw [if_neg h3] at h
          rw [(hrel (movieFolder destDir p rec)).1] at h
          simp only [Bool.false_eq_true, if_false] at h
          rcases movieMatLink_reliable_cases _ _ _ _ _ _ _ _ hrel h with
            ⟨hst, hskip⟩ | ⟨hpe, hdry, hst⟩
          · by_cases hc2 : movieCacheHit fileName st1 = true
            · unfold createSymlinkMat
              rw [if_pos hc2]
            · unfold createSymlinkMat
              rw [if_neg hc2, if_neg h2]
              simp only []
              have h3' : movieFolder destDir p rec ∈ st1.dirs := by
                subst hst
                exact List.mem_cons_self _ _
              rw [if_pos h3']
              have : pathExistsL st1 (movieDestFile destDir ext p rec) = true ∨ dry = true := by
                rcases hskip with hskip | hskip
                · left
                  rw [hst]
                  exact hskip
                · exact Or.inr hskip
              exact movieMatLink_skip _ _ _ _ _ this
          · have hc : movieCacheHit fileName st1 = true := by
              subst hst
              simp [movieCacheHit, alookup, pathExistsL, linkCreatedSt]
            unfold createSymlinkMat
            rw [if_pos hc]

/-- The gemini link-cache invariant: the processed file has a cache entry
    whose destination exists. -/
abbrev gInv (fileName : String) (st : GSt) : Prop :=
  ∃ d, alookup fileName st.symlinkCache = some d ∧ d ∈ st.files

theorem gLoop_inv_pres (fileName folder : String) (mkDest : String → String)
    (dry : Bool) (env : FsEnv) (eps : List String) (st st1 : GSt) (a e : Nat)
    (h : gLoop fileName folder mkDest dry env eps st = (st1, a, e))
    (hinv : gInv fileName st) : gInv fileName st1 := by
  induction eps generalizing st a e with
  | nil =>
    simp only [gLoop, Prod.mk.injEq] at h
    obtain ⟨hst, -, -⟩ := h
    subst hst
    exact hinv
  | cons ep rest ih =>
    rw [gLoop] at h
    split_ifs at h with hc1 hc2 hc3 hc4 hc5
    · exact ih _ _ _ h hinv
    · exact ih _ _ _ h hinv
    · simp only [] at h
      rcases hgl : gLoop fileName folder mkDest dry env rest st with ⟨q, b, c⟩
      rw [hgl] at h
      simp only [Prod.mk.injEq] at h
      obtain ⟨hq, -, -⟩ := h
      subst hq
      exact ih _ _ _ hgl hinv
    · simp only [] at h
      rcases hgl : gLoop fileName folder mkDest dry env rest st with ⟨q, b, c⟩
      rw [hgl] at h
      simp only [Prod.mk.injEq] at h
      obtain ⟨hq, -, -⟩ := h
      subst hq
      exact ih _ _ _ hgl hinv
    · simp only [] at h
      rcases hgl : gLoop fileName folder mkDest dry env rest
          ⟨(fileName, mkDest ep) :: st.symlinkCache, st.persistedLink, st.dirs,
           mkDest ep :: st.files⟩ with ⟨q, b, c⟩
      rw [hgl] at h
      simp only [Prod.mk.injEq] at h
      obtain ⟨hq, -, -⟩ := h
      subst hq
      exact ih _ _ _ hgl ⟨mkDest ep, by simp [alookup], by simp⟩
    · simp only [] at h
      rcases hgl : gLoop fileName folder mkDest dry env rest
          ⟨st.symlinkCache, st.persistedLink, folder :: st.dirs, st.files⟩ with ⟨q, b, c⟩
      rw [hgl] at h
      simp only [Prod.mk.injEq] at h
      obtain ⟨hq, -, -⟩ := h
      subst hq
      obtain ⟨d, hd1, hd2⟩ := hinv
      exact ih _ _ _ hgl ⟨d, hd1, hd2⟩
    · simp only [] at h
      rcases hgl : gLoop fileName folder mkDest dry env rest
          ⟨(fileName, mkDest ep) :: st.symlinkCache, st.persistedLink,
           folder :: st.dirs, mkDest ep :: st.files⟩ with ⟨q, b, c⟩
      rw [hgl] at h
      simp only [Prod.mk.injEq] at h
      obtain ⟨hq, -, -⟩ := h
      subst hq
      exact ih _ _ _ hgl ⟨mkDest ep, by simp [alookup], by simp⟩

theorem gLoop_reliable_zero (fileName folder : String) (mkDest : String → String)
    (env : FsEnv) (eps : List String) (st st1 : GSt) (a e : Nat)
    (hrel : env.reliable)
    (h : gLoop fileName folder mkDest false env eps st = (st1, a, e)) (ha : a = 0) :
    st1 = st ∧ ∀ ep ∈ eps, pathExistsG st (mkDest ep) = true := by
  induction eps generalizing st a e with
  | nil =>
    simp only [gLoop, Prod.mk.injEq] at h
    obtain ⟨hst, -, -⟩ := h
    exact ⟨hst.symm, by simp⟩
  | cons ep rest ih =>
    rw [gLoop] at h
    split_ifs at h with hc1 hc2 hc3 hc4 hc5 hc6
    · obtain ⟨hs, hrest⟩ := ih _ _ _ h ha
      refine ⟨hs, ?_⟩
      intro x hx
      rcases List.mem_cons.mp hx with rfl | hx'
      · exact hc1
      · exact hrest x hx'
    · simp at hc2
    · rw [(hrel folder).1] at hc3
      simp at hc3
    · rw [(hrel (mkDest ep)).2] at hc5
      simp at hc5
    · simp only [] at h
      rcases hgl : gLoop fileName folder mkDest false env rest
          ⟨(fileName, mkDest ep) :: st.symlinkCache, st.persistedLink, st.dirs,
           mkDest ep :: st.files⟩ with ⟨q, b, c⟩
      rw [hgl] at h
      simp only [Prod.mk.injEq] at h
      omega
    · rw [(hrel (mkDest ep)).2] at hc6
      simp at hc6
    · simp only [] at h
      rcases hgl : gLoop fileName folder mkDest false env rest
          ⟨(fileName, mkDest ep) :: st.symlinkCache, st.persistedLink,
           folder :: st.dirs, mkDest ep :: st.files⟩ with ⟨q, b, c⟩
      rw [hgl] at h
      simp only [Prod.mk.injEq] at h
      omega

theorem gLoop_reliable_created (fileName folder : String) (mkDest : String → String)
    (env : FsEnv) (eps : List String) (st st1 : GSt) (a e : Nat)
    (hrel : env.reliable)
    (h : gLoop fileName folder mkDest false env eps st = (st1, a, e)) (ha : 1 ≤ a) :
    gInv fileName st1 := by
  induction eps generalizing st a e with
  | nil =>
    simp only [gLoop, Prod.mk.injEq] at h
    omega
  | cons ep rest ih =>
    rw [gLoop] at h
    split_ifs at h with hc1 hc2 hc3 hc4 hc5 hc6
    · exact ih _ _ _ h ha
    · simp at hc2
    · rw [(hrel folder).1] at hc3
      simp at hc3
    · rw [(hrel (mkDest ep)).2] at hc5
      simp at hc5
    · simp only [] at h
      rcases hgl : gLoop fileName folder mkDest false env rest
          ⟨(fileName, mkDest ep) :: st.symlinkCache, st.persistedLink, st.dirs,
           mkDest ep :: st.files⟩ with ⟨q, b, c⟩
      rw [hgl] at h
      simp only [Prod.mk.injEq] at h
      obtain ⟨hq, -, -⟩ := h
      subst hq
      exact gLoop_inv_pres _ _ _ _ _ _ _ _ _ _ hgl
        ⟨mkDest ep, by simp [alookup], by simp⟩
    · rw [(hrel (mkDest ep)).2] at hc6
      simp at hc6
    · simp only [] at h
      rcases hgl : gLoop fileName folder mkDest false env rest
          ⟨(fileName, mkDest ep) :: st.symlinkCache, st.persistedLink,
           folder :: st.dirs, mkDest ep :: st.files⟩ with ⟨q, b, c⟩
      rw [hgl] at h
      simp only [Prod.mk.injEq] at h
      obtain ⟨hq, -, -⟩ := h
      subst hq
      exact gLoop_inv_pres _ _ _ _ _ _ _ _ _ _ hgl
        ⟨mkDest ep, by simp [alookup], by simp⟩

theorem gLoop_all_exist (fileName folder : String) (mkDest : String → String)
    (dry : Bool) (env : FsEnv) (eps : List String) (st : GSt)
    (hex : ∀ ep ∈ eps, pathExistsG st (mkDest ep) = true) :
    gLoop fileName folder mkDest dry env eps st = (st, 0, 0) := by
  induction eps with
  | nil => rfl
  | cons ep rest ih =>
    rw [gLoop]
    rw [if_pos (hex ep (List.mem_cons_self _ _))]
    exact ih (fun x hx => hex x (List.mem_cons_of_mem _ hx))

/-- C1, gemini half: after a completed processFile materialization, running
    the same pair again against the resulting state returns it unchanged
    with zero symlink attempts and zero caught errors. -/
theorem claim1_gemini_idempotent (fileName ext destDir : String)
    (parsed : Option GParsed) (showR : Option ShowRec) (dry : Bool) (env : FsEnv)
    (st st1 : GSt) (a1 e1 : Nat) (hrel : env.reliable)
    (h : geminiMat fileName ext destDir parsed showR dry env st = (st1, a1, e1)) :
    geminiMat fileName ext destDir parsed showR dry env st1 = (st1, 0, 0) := by
  unfold geminiMat at h
  by_cases h1 : gCacheHit fileName st = true
  · rw [if_pos h1] at h
    simp only [Prod.mk.injEq] at h
    obtain ⟨hst, -, -⟩ := h
    subst hst
    unfold geminiMat
    rw [if_pos h1]
  · rw [if_neg h1] at h
    cases parsed with
    | none =>
      simp only [Prod.mk.injEq] at h
      obtain ⟨hst, -, -⟩ := h
      subst hst
      unfold geminiMat
      rw [if_neg h1]
    | some p =>
      simp only [] at h
      by_cases h2 : p.rawTitle = ""
      · rw [if_pos h2] at h
        simp only [Prod.mk.injEq] at h
        obtain ⟨hst, -, -⟩ := h
        subst hst
        unfold geminiMat
        rw [if_neg h1]
        simp only []
        rw [if_pos h2]
      · rw [if_neg h2] at h
        cases showR with
        | none =>
          simp only [Prod.mk.injEq] at h
          obtain ⟨hst, -, -⟩ := h
          subst hst
          unfold geminiMat
          rw [if_neg h1]
          simp only []
          rw [if_neg h2]
        | some r =>
          simp only [] at h
          cases dry with
          | true =>
            rw [gLoop_dry] at h
            simp only [Prod.mk.injEq] at h
            obtain ⟨hst, -, -⟩ := h
            subst hst
            unfold geminiMat
            rw [if_neg h1]
            simp only []
            rw [if_neg h2]
            exact gLoop_dry _ _ _ _ _ _
          | false =>
            by_cases ha : 1 ≤ a1
            · have hinv := gLoop_reliable_created _ _ _ _ _ _ _ _ _ hrel h ha
              obtain ⟨d, hd1, hd2⟩ := hinv
              have hc : gCacheHit fileName st1 = true := by
                unfold gCacheHit
                rw [hd1]
                simp [pathExistsG, hd2]
              unfold geminiMat
              rw [if_pos hc]
            · have ha0 : a1 = 0 := by omega
              obtain ⟨hst, hex⟩ := gLoop_reliable_zero _ _ _ _ _ _ _ _ _ hrel h ha0
              subst hst
              unfold geminiMat
              rw [if_neg h1]
              simp only []
              rw [if_neg h2]
              exact gLoop_all_exist _ _ _ _ _ _ _ hex

/-- C1: materializing the same (parsed release, provider record) pair twice
    with the link cache carried over leaves the state of the second run
    identical to the state after the first, with no new symlink attempt and
    no error, in both the movies variant and the gemini series variant. -/
theorem claim1_materialization_idempotent :
    (∀ (fileName ext destDir : String) (p : ParsedMovie)
       (movie : Option MovieRec) (dry : Bool) (env : FsEnv) (st st1 : LSt)
       (a1 e1 : Nat), env.reliable →
      createSymlinkMat fileName ext destDir p movie dry env st = .ok (st1, a1, e1) →
      createSymlinkMat fileName ext destDir p movie dry env st1 = .ok (st1, 0, 0)) ∧
    (∀ (fileName ext destDir : String) (parsed : Option GParsed)
       (showR : Option ShowRec) (dry : Bool) (env : FsEnv) (st st1 : GSt)
       (a1 e1 : Nat), env.reliable →
      geminiMat fileName ext destDir parsed showR dry env st = (st1, a1, e1) →
      geminiMat fileName ext destDir parsed showR dry env st1 = (st1, 0, 0)) :=
  ⟨fun fileName ext destDir p movie dry env st st1 a1 e1 hrel h =>
      claim1_movies_idempotent fileName ext destDir p movie dry env st st1 a1 e1 hrel h,
   fun fileName ext destDir parsed showR dry env st st1 a1 e1 hrel h =>
      claim1_gemini_idempotent fileName ext destDir parsed showR dry env st st1 a1 e1 hrel h⟩

/-- Closed witness for the C1 theorem: the second run over the state left by
    a concrete successful first run is a no-op in both variants. -/
theorem claim1_materialization_idempotent_witness :
    createSymlinkMat "Avatar.2009.mkv" ".mkv" "/d" ⟨"Avatar", some "2009", ""⟩
        (some ⟨"Avatar", some "2009-12-18"⟩) false noFail
        ⟨[("Avatar.2009.mkv", "/d/Avatar (2009)/Avatar (2009).mkv")],
         [("Avatar.2009.mkv", "/d/Avatar (2009)/Avatar (2009).mkv")],
         ["/d/Avatar (2009)"], ["/d/Avatar (2009)/Avatar (2009).mkv"]⟩ =
      .ok (⟨[("Avatar.2009.mkv", "/d/Avatar (2009)/Avatar (2009).mkv")],
            [("Avatar.2009.mkv", "/d/Avatar (2009)/Avatar (2009).mkv")],
            ["/d/Avatar (2009)"], ["/d/Avatar (2009)/Avatar (2009).mkv"]⟩, 0, 0) ∧
    geminiMat "Show.S01E01.mkv" ".mkv" "/dest" (some ⟨"Show", "01", ["01"]⟩)
        (some ⟨"Show", some "2020-05-05"⟩) false noFail
        ⟨[("Show.S01E01.mkv", "/dest/Show (2020)/Season 1/Show - S01E01.mkv")],
         [], ["/dest/Show (2020)/Season 1"],
         ["/dest/Show (2020)/Season 1/Show - S01E01.mkv"]⟩ =
      (⟨[("Show.S01E01.mkv", "/dest/Show (2020)/Season 1/Show - S01E01.mkv")],
        [], ["/dest/Show (2020)/Season 1"],
        ["/dest/Show (2020)/Season 1/Show - S01E01.mkv"]⟩, 0, 0) :=
  ⟨claim1_materialization_idempotent.1 "Avatar.2009.mkv" ".mkv" "/d"
      ⟨"Avatar", some "2009", ""⟩ (some ⟨"Avatar", some "2009-12-18"⟩) false noFail
      ⟨[], [], [], []⟩ _ 1 0 noFail_reliable (by rfl),
   claim1_materialization_idempotent.2 "Show.S01E01.mkv" ".mkv" "/dest"
      (some ⟨"Show", "01", ["01"]⟩) (some ⟨"Show", some "2020-05-05"⟩) false noFail
      ⟨[], [], [], []⟩ _ 1 0 noFail_reliable (by rfl)⟩

/-- Closed witness for the C8 theorem: concrete all-missing environments for
    both resolvers. -/
theorem claim8_notfound_not_cached_witness :
    ((⟨[], []⟩ : MetaSt) = ⟨[], []⟩ ∧ 1 ≤ 2 ∧
      fetchMovie 1 { tmdb := fun _ _ => [], omdb := fun _ _ => none }
        "Missing Movie" (some "2020") ⟨[], []⟩ = (none, ⟨[], []⟩, 2)) ∧
    ((⟨[], [], [], [], []⟩ : SSt) = ⟨[], [], [], [], []⟩ ∧ 1 ≤ 2 ∧
      seriesResolve { tmdbTv := fun _ _ => [], omdbT := fun _ => none }
        "Missing Show" ⟨[], [], [], [], []⟩ =
        (none, ⟨[], [], [], [], []⟩, 2)) :=
  ⟨claim8_notfound_not_cached.1 0
      { tmdb := fun _ _ => [], omdb := fun _ _ => none }
      "Missing Movie" (some "2020") ⟨[], []⟩ ⟨[], []⟩ 2 (by decide),
   claim8_notfound_not_cached.2
      { tmdbTv := fun _ _ => [], omdbT := fun _ => none }
      "Missing Show" ⟨[], [], [], [], []⟩ ⟨[], [], [], [], []⟩ 2 (by decide)⟩

end Emgo
